import Mathlib

/-!
# WhatsApp / Claude bot: conversation orchestration

A shallow embedding of `src/index.js` (the `messages.upsert` handler, its helpers and the
history window) and of `src/claude.js` (`getClaudeCompletion`), followed by theorems about
them.

Conventions of the embedding.

* A JavaScript string is the list of its UTF-16 code units (`JsString`), so that `length`,
  `slice`, `startsWith` and the regular expressions work on the same units as in the source.
* An array is an object with an identity.  Where the source keeps two references to arrays
  (`history`, `messagesForApi`, `conversationHistory[remoteJid]`) the embedding keeps an explicit
  `Heap` of array objects and addresses into it.
* Calls to collaborators (the socket, the Anthropic client) are recorded in a trace of `Effect`s;
  what each call answers is read from an `Env`, one per handled event.
* Logging is not modelled.
-/

namespace ClaudeBot

/-! ## Strings -/

/-- A JavaScript string: its UTF-16 code units. -/
abbrev JsString := List Nat

/-- UTF-16 code units of one Unicode scalar value. -/
def utf16 (c : Char) : List Nat :=
  if c.toNat < 0x10000 then [c.toNat]
  else [0xD800 + (c.toNat - 0x10000) / 0x400, 0xDC00 + (c.toNat - 0x10000) % 0x400]

/-- UTF-16 code units of a list of scalar values. -/
def utf16s : List Char → JsString
  | [] => []
  | c :: cs => utf16 c ++ utf16s cs

/-- The JavaScript string written as the literal `s`. -/
def js (s : String) : JsString := utf16s s.toList

/-- Truthiness of a string value: `''` is falsy. -/
def truthyStr (s : JsString) : Bool := !s.isEmpty

/-- `String.prototype.startsWith`. -/
def startsWith (s p : JsString) : Bool := p.isPrefixOf s

/-- `String.prototype.endsWith`. -/
def endsWith (s p : JsString) : Bool := p.isSuffixOf s

/-- `String.prototype.slice(n)` with `0 ≤ n`. -/
def slice (s : JsString) (n : Nat) : JsString := s.drop n

/-- White space and line terminators: the code units matched by `\s` and stripped by `trim`. -/
def isWhiteSpace (u : Nat) : Bool :=
  u == 0x09 || u == 0x0A || u == 0x0B || u == 0x0C || u == 0x0D || u == 0x20 || u == 0xA0 ||
  u == 0x1680 || (0x2000 ≤ u && u ≤ 0x200A) || u == 0x2028 || u == 0x2029 || u == 0x202F ||
  u == 0x205F || u == 0x3000 || u == 0xFEFF

/-- `String.prototype.trim`. -/
def trim (s : JsString) : JsString :=
  ((s.dropWhile isWhiteSpace).reverse.dropWhile isWhiteSpace).reverse

/-- Worker of `splitWs`: `cur` is the token being read (reversed), `inSep` tells that the
previous unit belonged to a separator. -/
def splitWsAux : List Nat → Bool → JsString → List JsString
  | cur, _, [] => [cur.reverse]
  | cur, inSep, u :: us =>
    if isWhiteSpace u then
      if inSep then splitWsAux cur true us else cur.reverse :: splitWsAux [] true us
    else splitWsAux (u :: cur) false us

/-- `s.split(/\s+/)`: the pieces of `s` between maximal runs of white space. -/
def splitWs (s : JsString) : List JsString := splitWsAux [] false s

/-- `Array.prototype.join(' ')` on strings. -/
def joinSp : List JsString → JsString
  | [] => []
  | [a] => a
  | a :: b :: rest => a ++ [0x20] ++ joinSp (b :: rest)

/-- Decimal digits of `n`, most significant first, reading at most `fuel` digits. -/
def decimalAux : Nat → Nat → List Nat → List Nat
  | 0, _, acc => acc
  | fuel + 1, n, acc =>
    if n < 10 then (0x30 + n) :: acc else decimalAux fuel (n / 10) ((0x30 + n % 10) :: acc)

/-- Conversion of a non-negative integer to a string in a template literal. -/
def decimal (n : Nat) : JsString := decimalAux (n + 1) n []

/-! ## Data model -/

/-- The `role` of a message. -/
inductive Role
  | user
  | assistant
  | system
  deriving DecidableEq, Repr

/-- An entry of a conversation history: `{ role, content }`. -/
structure Message where
  role : Role
  content : JsString
  deriving DecidableEq, Repr

/-- The per-chat settings object created at `index.js:146`. -/
structure ChatSettings where
  aiEnabled : Bool
  antiLinkEnabled : Bool
  welcomeEnabled : Bool
  antiSpamEnabled : Bool
  deriving DecidableEq, Repr

/-- The two module-level maps of `index.js` (lines 23 and 28), keyed by chat id. -/
structure Store where
  conversationHistory : JsString → Option (List Message)
  chatSettings : JsString → Option ChatSettings

/-- The maps as they are when the module is loaded. -/
def Store.empty : Store := ⟨fun _ => none, fun _ => none⟩

/-- Assignment `map[key] = value`. -/
def setKey {β : Type} (m : JsString → Option β) (key : JsString) (value : β) :
    JsString → Option β :=
  fun k => if k = key then some value else m k

/-- The window constant of `index.js:24`. -/
def MAX_HISTORY_LENGTH : Nat := 10

/-- A participant entry of the group metadata: `admin` is `'admin'`, `'superadmin'` or absent. -/
structure Participant where
  id : JsString
  admin : Option JsString
  deriving DecidableEq, Repr

/-- The group metadata answered by the socket. -/
structure GroupMetadata where
  subject : JsString
  participants : Option (List Participant)
  deriving DecidableEq, Repr

/-- One block of `response.content` of the Anthropic client. -/
structure ContentBlock where
  type : JsString
  text : JsString
  deriving DecidableEq, Repr

/-- What `anthropic.messages.create` does: it resolves to a response (whose `content` may be
missing), or it throws an `Anthropic.APIError` with a status, or it throws something else. -/
inductive ApiOutcome
  | response (content : Option (List ContentBlock))
  | noResponse
  | apiError (status : Option Nat)
  | otherError
  deriving DecidableEq, Repr

/-- The places of the `messages.upsert` handler where a collaborator that may throw is awaited. -/
inductive Site
  | rejection        -- line 174
  | updateSubject    -- line 255
  | image            -- line 271
  | farewell         -- line 284
  | leave            -- line 286
  | reply            -- line 342
  | deleteLink       -- line 367
  | deleteSpam       -- line 391
  | composing        -- line 441
  | paused           -- line 447
  | answer           -- line 466
  | noAnswer         -- line 469
  | pausedInCatch    -- line 474
  | errorNotice      -- line 476
  | welcome          -- line 119, in the `group-participants.update` handler
  deriving DecidableEq, Repr

/-- Everything outside the handler that one handled event reads. -/
structure Env where
  /-- Value of `config.commandPrefix` (config.js:11). -/
  commandPrefix : JsString
  /-- The function `String.prototype.toLowerCase` of the runtime. -/
  toLowerCase : JsString → JsString
  /-- Whether `new URL(s)` accepts `s`. -/
  validUrl : JsString → Bool
  /-- What `sock.groupMetadata(remoteJid)` resolves to; `none` when it throws. -/
  metadata : Option GroupMetadata
  /-- Value of `sock.user.id`; `none` when `sock.user` is undefined. -/
  botUser : Option JsString
  /-- Whether the awaited call at a site resolves (`true`) or throws (`false`). -/
  ok : Site → Bool
  /-- Whether the module variable `anthropic` of `claude.js` holds a client (claude.js:6-16). -/
  anthropic : Bool
  /-- Behaviour of `anthropic.messages.create`. -/
  api : ApiOutcome

/-- Requests made to the collaborators, in the order they are made. -/
inductive Effect
  | groupMetadata (jid : JsString)
  | sendText (jid text : JsString) (quoted : Bool)
  | sendImage (jid url caption : JsString)
  | sendDelete (jid : JsString)
  | presence (composing : Bool) (jid : JsString)
  | groupUpdateSubject (jid subject : JsString)
  | groupLeave (jid : JsString)
  | messagesCreate (system : Option JsString) (messages : List Message)
  | sendMentions (jid text : JsString) (mentions : List JsString)
  deriving DecidableEq, Repr

/-! ## History window (`index.js:427-435`, repeated at `454-462`) -/

/-- The trim of `index.js:427-435`: from the array `history`, the array `messagesForApi`.
The same statements, on `updatedHistory`, are lines 454-462. -/
def trimHistory (history : List Message) : List Message :=
  -- const systemMessage = history[0]?.role === 'system' ? history[0] : null;
  let systemMessage : Option Message :=
    match history.head? with
    | some m => if m.role = Role.system then some m else none
    | none => none
  -- let startIndex = history.length > MAX ? history.length - MAX : 0;
  let startIndex : Nat :=
    if history.length > MAX_HISTORY_LENGTH then history.length - MAX_HISTORY_LENGTH else 0
  -- if (systemMessage && startIndex === 0 && history.length > MAX) startIndex = 1;
  let startIndex : Nat :=
    if systemMessage.isSome && startIndex == 0 && decide (history.length > MAX_HISTORY_LENGTH)
    then 1 else startIndex
  -- systemMessage ? [systemMessage, ...history.slice(startIndex)] : history.slice(startIndex)
  match systemMessage with
  | some s => s :: history.drop startIndex
  | none => history.drop startIndex

/-! ## Array objects -/

/-- The array objects alive during one run of the handler, by address. -/
abbrev Heap := List (List Message)

/-- The contents of the array at address `a`. -/
def Heap.read (h : Heap) (a : Nat) : List Message := h.getD a []

/-- `array.push(m)` on the array at address `a`: the object is changed in place. -/
def Heap.push (h : Heap) (a : Nat) (m : Message) : Heap := h.set a (h.read a ++ [m])

/-- A new array object with the given contents (`slice`, an array literal): the heap grows by
one object, whose address is returned. -/
def Heap.alloc (h : Heap) (contents : List Message) : Heap × Nat := (h ++ [contents], h.length)

/-! ## The request to Claude (`claude.js:21-84`) -/

/-- Lines 32-36 of `claude.js`: the messages without the system ones (`history`), from the
first user message on (`cleanedHistory`). -/
def cleanedHistory (messages : List Message) : List Message :=
  -- line 32: messages.filter(m => m.role !== 'system')
  let history := messages.filter (fun m => decide (m.role ≠ Role.system))
  -- lines 35-36: findIndex, slice
  match history.findIdx? (fun m => decide (m.role = Role.user)) with
  | some firstUserIndex => history.drop firstUserIndex
  | none => []

/-- Line 46 of `claude.js`: `messages.find(m => m.role === 'system')?.content || systemPrompt`,
then `system || undefined` of line 54. -/
def systemOf (messages : List Message) (systemPrompt : JsString) : Option JsString :=
  let system : JsString :=
    match messages.find? (fun m => decide (m.role = Role.system)) with
    | some m => if truthyStr m.content then m.content else systemPrompt
    | none => systemPrompt
  if truthyStr system then some system else none

/-- The message returned when the response has no leading text block (line 67). -/
def invalidResponse : Message :=
  ⟨Role.assistant, js "Sorry, I received an unexpected response from the AI."⟩

/-- Lines 48-83 of `claude.js`: the message returned after `anthropic.messages.create` has
been called. -/
def completionOf (api : ApiOutcome) : Message :=
  match api with
  -- lines 61-68
  | ApiOutcome.response (some (block :: _)) =>
    if block.type = js "text" then ⟨Role.assistant, block.text⟩ else invalidResponse
  | ApiOutcome.response (some []) => invalidResponse
  | ApiOutcome.response none => invalidResponse
  | ApiOutcome.noResponse => invalidResponse
  -- lines 70-83
  | ApiOutcome.apiError status =>
    if status = some 401 ∨ status = some 403 then
      ⟨Role.assistant, js "AI API authentication failed. Please check the API key."⟩
    else if status = some 429 then
      ⟨Role.assistant, js "AI rate limit reached. Please try again later."⟩
    else ⟨Role.assistant, js "Sorry, I encountered an error trying to reach the AI."⟩
  | ApiOutcome.otherError =>
    ⟨Role.assistant, js "Sorry, I encountered an error trying to reach the AI."⟩

/-- The function `getClaudeCompletion` of `claude.js`: the value it returns (`none` for `null`)
and the requests it makes to the Anthropic client. -/
def getClaudeCompletion (env : Env) (messages : List Message) (systemPrompt : JsString) :
    Option Message × List Effect :=
  -- lines 22-25
  if !env.anthropic then
    (some ⟨Role.assistant, js "Sorry, the AI module is not initialized."⟩, [])
  else
  -- lines 32-36
  let cleaned := cleanedHistory messages
  -- lines 39-43
  if cleaned.length == 0 || decide ((cleaned.getLast?.map Message.role) ≠ some Role.user) then
    (none, [])
  else
  -- lines 46-83: one call of anthropic.messages.create
  (some (completionOf env.api),
    [Effect.messagesCreate (systemOf messages systemPrompt) cleaned])

/-! ## The AI section of the handler (`index.js:415-483`) -/

/-- The `catch` block of lines 472-480: both calls are attempted, each inside its own `try`. -/
def aiCatch (remoteJid : JsString) : List Effect :=
  [Effect.presence false remoteJid,
   Effect.sendText remoteJid (js "Sorry, an error occurred while processing the AI response.")
     false]

/-- Lines 417-480 of the handler, for a chat whose entry of `conversationHistory` is `stored`
(`none` when the chat has no entry): the array the entry refers to when the section ends, and
the requests made. -/
def aiSection (env : Env) (remoteJid messageText : JsString) (stored : Option (List Message)) :
    List Message × List Effect :=
  -- lines 419-421: the array object `conversationHistory[remoteJid]` refers to, at address 0
  let heap : Heap := [stored.getD []]
  let entry : Nat := 0
  -- line 424: conversationHistory[remoteJid].push({ role: 'user', content: messageText })
  let heap := heap.push entry ⟨Role.user, messageText⟩
  -- line 427: const history = conversationHistory[remoteJid]
  let history : Nat := entry
  -- lines 428-435: messagesForApi is a new array
  let (heap, messagesForApi) := heap.alloc (trimHistory (heap.read history))
  -- line 438: conversationHistory[remoteJid] = messagesForApi
  let entry : Nat := messagesForApi
  -- line 441
  let trace := [Effect.presence true remoteJid]
  if !env.ok Site.composing then (heap.read entry, trace ++ aiCatch remoteJid) else
  -- line 444
  let (claudeResponse, calls) := getClaudeCompletion env (heap.read messagesForApi) []
  -- line 447
  let trace := trace ++ calls ++ [Effect.presence false remoteJid]
  if !env.ok Site.paused then (heap.read entry, trace ++ aiCatch remoteJid) else
  -- line 450: claudeResponse && claudeResponse.content
  let accepted : Option Message :=
    match claudeResponse with
    | some r => if truthyStr r.content then some r else none
    | none => none
  match accepted with
  | some r =>
    -- line 452: history.push(claudeResponse)
    let heap := heap.push history r
    -- line 454: const updatedHistory = conversationHistory[remoteJid]
    let updatedHistory : Nat := entry
    -- lines 455-462: the entry is set to a new, trimmed array
    let (heap, trimmed) := heap.alloc (trimHistory (heap.read updatedHistory))
    let entry : Nat := trimmed
    -- line 466
    let trace := trace ++ [Effect.sendText remoteJid r.content false]
    if !env.ok Site.answer then (heap.read entry, trace ++ aiCatch remoteJid)
    else (heap.read entry, trace)
  | none =>
    -- line 469
    let trace := trace ++
      [Effect.sendText remoteJid (js "Sorry, I couldn't get a response from the AI right now.")
        false]
    if !env.ok Site.noAnswer then (heap.read entry, trace ++ aiCatch remoteJid)
    else (heap.read entry, trace)

/-! ## Regular expressions -/

/-- The regular expressions the source uses: classes of code units, quantified classes,
sequence, alternative and option. -/
inductive Re
  | cls (p : Nat → Bool)
  | rep (p : Nat → Bool) (min : Nat) (max : Option Nat)
  | seq (a b : Re)
  | alt (a b : Re)
  | opt (a : Re)

/-- The strings left after `k` units, then any further run of units of the class `p`, have been
read from the front of a string, for every length of the run between `min` and `max`. -/
def repEnds (p : Nat → Bool) (min : Nat) (max : Option Nat) : Nat → JsString → List JsString
  | k, [] => if min ≤ k then [[]] else []
  | k, u :: us =>
    (if min ≤ k then [u :: us] else []) ++
      (if p u && (match max with | some n => decide (k < n) | none => true)
       then repEnds p min max (k + 1) us else [])

/-- Concatenation of the lists `f x`, for `x` in a list. -/
def concatMap {α β : Type} (f : α → List β) : List α → List β
  | [] => []
  | x :: xs => f x ++ concatMap f xs

/-- All the ways a regular expression matches at the front of `s`: the list of what is left of
`s` after each match. -/
def Re.ends : Re → JsString → List JsString
  | Re.cls _, [] => []
  | Re.cls p, u :: us => if p u then [us] else []
  | Re.rep p min max, s => repEnds p min max 0 s
  | Re.seq a b, s => concatMap (Re.ends b) (Re.ends a s)
  | Re.alt a b, s => Re.ends a s ++ Re.ends b s
  | Re.opt a, s => Re.ends a s ++ [s]

/-- `RegExp.prototype.test` for an expression without flags: some match starts somewhere in
the string. -/
def Re.test (r : Re) : JsString → Bool
  | [] => !(Re.ends r []).isEmpty
  | u :: us => !(Re.ends r (u :: us)).isEmpty || Re.test r us

/-- The class of one code unit, written as a character. -/
def chr (c : Char) : Nat → Bool := fun u => u == c.toNat

/-- The class `[A-Za-z]`. -/
def isAlpha (u : Nat) : Bool := (0x41 ≤ u && u ≤ 0x5A) || (0x61 ≤ u && u ≤ 0x7A)

/-- The class `[0-9]`. -/
def isDigit (u : Nat) : Bool := 0x30 ≤ u && u ≤ 0x39

/-- The class `\w`. -/
def isWord (u : Nat) : Bool := isAlpha u || isDigit u || u == 0x5F

/-- The class `.`: anything but a line terminator. -/
def isDot (u : Nat) : Bool := !(u == 0x0A || u == 0x0D || u == 0x2028 || u == 0x2029)

/-- Membership of a unit in a list of characters. -/
def oneOf (cs : List Char) (u : Nat) : Bool := cs.any (fun c => u == c.toNat)

/-- The class `[-;:&=\+\$,\w]`. -/
def isUserInfo (u : Nat) : Bool := oneOf ['-', ';', ':', '&', '=', '+', '$', ','] u || isWord u

/-- The class `[A-Za-z0-9.-]`. -/
def isHost (u : Nat) : Bool := isAlpha u || isDigit u || oneOf ['.', '-'] u

/-- The class `[\+~%\/.\w\-_]`. -/
def isPath (u : Nat) : Bool := oneOf ['+', '~', '%', '/', '.', '-', '_'] u || isWord u

/-- The class `[-\+=&;%@.\w_]`. -/
def isQuery (u : Nat) : Bool := oneOf ['-', '+', '=', '&', ';', '%', '@', '.', '_'] u || isWord u

/-- The class `[.\!\/\\w]`: a dot, `!`, `/`, a backslash or the letter `w`. -/
def isFragment (u : Nat) : Bool := oneOf ['.', '!', '/', '\\', 'w'] u

/-- The expression `urlRegex` of `index.js:362`. -/
def urlRegex : Re :=
  -- ([A-Za-z]{3,9}:(?:\/\/)?)
  let scheme := Re.seq (Re.rep isAlpha 3 (some 9))
    (Re.seq (Re.cls (chr ':')) (Re.opt (Re.seq (Re.cls (chr '/')) (Re.cls (chr '/')))))
  -- (?:[-;:&=\+\$,\w]+@)
  let userInfo := Re.seq (Re.rep isUserInfo 1 none) (Re.cls (chr '@'))
  -- [A-Za-z0-9.-]+
  let host := Re.rep isHost 1 none
  -- (?:www.|[-;:&=\+\$,\w]+@)
  let www := Re.seq (Re.cls (chr 'w'))
    (Re.seq (Re.cls (chr 'w')) (Re.seq (Re.cls (chr 'w')) (Re.cls isDot)))
  let first := Re.alt (Re.seq scheme (Re.seq (Re.opt userInfo) host))
    (Re.seq (Re.alt www userInfo) host)
  -- ((?:\/[\+~%\/.\w\-_]*)?\??(?:[-\+=&;%@.\w_]*)#?(?:[.\!\/\\w]*))?
  let rest := Re.opt
    (Re.seq (Re.opt (Re.seq (Re.cls (chr '/')) (Re.rep isPath 0 none)))
      (Re.seq (Re.opt (Re.cls (chr '?')))
        (Re.seq (Re.rep isQuery 0 none)
          (Re.seq (Re.opt (Re.cls (chr '#'))) (Re.rep isFragment 0 none)))))
  Re.seq first rest

/-! ## Group helpers (`index.js:32-46`) -/

/-- The function `getGroupMetadata`: the query is made, a failure is turned into `null`. -/
def getGroupMetadata (env : Env) (jid : JsString) : Option GroupMetadata × List Effect :=
  (env.metadata, [Effect.groupMetadata jid])

/-- The function `isGroupAdmin` (lines 42-46); `none` stands for absent metadata. -/
def isGroupAdmin (groupMetadata : Option GroupMetadata) (participantJid : JsString) : Bool :=
  match groupMetadata with
  | none => false
  | some md =>
    match md.participants with
    | none => false
    | some ps =>
      match ps.find? (fun p => decide (p.id = participantJid)) with
      | none => false
      | some participant =>
        decide (participant.admin = some (js "admin")) ||
          decide (participant.admin = some (js "superadmin"))

/-! ## Moderation (`index.js:360-403`) -/

/-- Lines 360-403, with the three constants of lines 356-358 given: whether the message was
deleted (`messageDeleted`), and the requests made. -/
def moderationChecks (env : Env) (remoteJid messageText : JsString)
    (currentSettings : ChatSettings) (senderIsAdmin botIsAdmin : Bool) : Bool × List Effect :=
  -- lines 361-380
  let (messageDeleted, trace) : Bool × List Effect :=
    if currentSettings.antiLinkEnabled && !senderIsAdmin then
      if Re.test urlRegex messageText then
        if botIsAdmin then (env.ok Site.deleteLink, [Effect.sendDelete remoteJid])
        else (false, [])
      else (false, [])
    else (false, [])
  -- lines 383-403
  if !messageDeleted && currentSettings.antiSpamEnabled && !senderIsAdmin then
    let isSpam := decide (messageText.length > 1000)
    if isSpam then
      if botIsAdmin then (env.ok Site.deleteSpam, trace ++ [Effect.sendDelete remoteJid])
      else (messageDeleted, trace)
    else (messageDeleted, trace)
  else (messageDeleted, trace)

/-! ## Outcomes and scopes -/

/-- An exception that leaves the handler. -/
inductive Err
  | referenceError (name : String)
  | typeError
  | rejected (site : Site)
  deriving DecidableEq, Repr

/-- How a run of the handler ends: it returns, or an exception leaves it. -/
inductive Completion
  | returned
  | threw (error : Err)
  deriving DecidableEq, Repr

/-- A handled event: the maps afterwards, the requests made, and how the run ended. -/
structure Outcome where
  store : Store
  trace : List Effect
  completion : Completion

/-- The value of a binding, as far as the handler reads it through an identifier that the
embedding resolves by name. -/
inductive JsVal
  | bool (b : Bool)
  | metadata (m : Option GroupMetadata)
  | other

/-- Truthiness of a value read through `lookupIdent`. -/
def JsVal.truthy : JsVal → Bool
  | JsVal.bool b => b
  | JsVal.metadata m => m.isSome
  | JsVal.other => true

/-- The metadata held by a value, `null` when it holds none. -/
def JsVal.asMetadata : JsVal → Option GroupMetadata
  | JsVal.metadata m => m
  | _ => none

/-- Resolution of an identifier against the bindings in scope, innermost first: `none` when no
enclosing scope declares the name, which makes the evaluation throw a `ReferenceError`. -/
def lookupIdent (scope : List (String × JsVal)) (name : String) : Option JsVal :=
  match scope.find? (fun b => b.1 == name) with
  | some b => some b.2
  | none => none

/-- Bindings without a value of interest. -/
def names (ns : List String) : List (String × JsVal) := ns.map (fun n => (n, JsVal.other))

/-- Names declared at the top level of `index.js` (imports, lines 1-11; declarations, lines
20-49). -/
def moduleScope : List (String × JsVal) :=
  names ["makeWASocket", "useMultiFileAuthState", "fetchLatestBaileysVersion",
    "DisconnectReason", "makeCacheableSignalKeyStore", "logger", "config",
    "getClaudeCompletion", "AUTH_DIR", "conversationHistory", "MAX_HISTORY_LENGTH",
    "chatSettings", "getGroupMetadata", "isGroupAdmin", "connectToWhatsApp"]

/-- Names declared in the body of `connectToWhatsApp` (lines 51-57). -/
def connectScope : List (String × JsVal) :=
  names ["state", "saveCreds", "version", "isLatest", "sock"]

/-- Names declared in the body of the `messages.upsert` handler itself (lines 130-148, 352,
413). -/
def handlerScope (isGroup : Bool) : List (String × JsVal) :=
  [("isGroup", JsVal.bool isGroup)] ++
  names ["m", "msg", "remoteJid", "messageText", "senderJid", "currentSettings",
    "messageDeleted", "shouldRespondWithAI"]

/-- Names declared in the block of the command branch (lines 152-155, 179-180) and in the block
of its `switch` (lines 252, 265, 302-303). -/
def commandScope (isAdmin : Bool) (groupMetadata : Option GroupMetadata) :
    List (String × JsVal) :=
  names ["newSubject", "imageUrl", "menuPrefix", "menuText"] ++
  [("isAdmin", JsVal.bool isAdmin), ("groupMetadata", JsVal.metadata groupMetadata)] ++
  names ["command", "args", "commandLower", "replyText", "settingChanged"]

/-- Names declared in the block of `if (isGroup)` at lines 355-404. -/
def moderationScope : List (String × JsVal) :=
  names ["metadata", "senderIsAdmin", "botIsAdmin"]

/-! ## Commands (`index.js:151-345`) -/

/-- The text `'ON'` or `'OFF'` of the conditional expressions in the replies. -/
def onOff (b : Bool) : JsString := if b then js "ON" else js "OFF"

/-- The list `adminCommands` of line 172. -/
def adminCommands : List JsString :=
  [js "aion", js "aioff", js "antilink", js "welcome", js "antispam"]

/-- What the `switch` of lines 182-335 leaves behind: the settings object, `replyText`
(`none` for `null`), the requests made, and, when the handler ended inside the `switch`, how. -/
structure Dispatch where
  settings : ChatSettings
  replyText : Option JsString
  trace : List Effect
  exit : Option Completion

/-- A case of the `switch` that only sets `replyText`. -/
def Dispatch.say (settings : ChatSettings) (text : JsString) : Dispatch :=
  ⟨settings, some text, [], none⟩

/-- The menu text of lines 302-328. -/
def menuText (env : Env) (isGroup : Bool) (currentSettings : ChatSettings) : JsString :=
  let menuPrefix := env.commandPrefix
  js "*🤖 Claude Bot Menu*\n\n" ++
  js "Use commands starting with `" ++ menuPrefix ++ js "`\n\n" ++
  js "*AI Chat:*\n" ++
  js "💬 Responds to all messages in private chat.\n" ++
  (if isGroup then
    js "   - Group AI: `" ++ onOff currentSettings.aiEnabled ++ js "`\n" ++
    js "   - " ++ menuPrefix ++ js "aion - Enable AI in this group (Admin Only)\n" ++
    js "   - " ++ menuPrefix ++ js "aioff - Disable AI in this group (Admin Only)\n\n"
  else
    js "   (Use `!aion` / `!aioff` in groups to control AI there)\n\n") ++
  js "*Group Management (Admin Only):*\n" ++
  js "🔗 Anti-Link: `" ++ onOff currentSettings.antiLinkEnabled ++ js "` (`" ++ menuPrefix ++
    js "antilink on/off`) \n" ++
  js "👋 Welcome: `" ++ onOff currentSettings.welcomeEnabled ++ js "` (`" ++ menuPrefix ++
    js "welcome on/off`) \n" ++
  js "🛡️ Anti-Spam: `" ++ onOff currentSettings.antiSpamEnabled ++ js "` (`" ++ menuPrefix ++
    js "antispam on/off`) \n\n" ++
  js "*Other Commands:*\n" ++
  js "   - " ++ menuPrefix ++ js "groupinfo - Show group details (Groups Only)\n" ++
  js "   - " ++ menuPrefix ++ js "setgroupsubject <subject> - Change group name (Admin Only)\n" ++
  js "   - " ++ menuPrefix ++ js "sendimage <url> - Send image from URL\n" ++
  js "   - " ++ menuPrefix ++ js "leave - Make the bot leave the current group\n" ++
  js "   - " ++ menuPrefix ++ js "myinfo - Show my WhatsApp ID\n" ++
  js "   - " ++ menuPrefix ++ js "menu / " ++ menuPrefix ++ js "help - Show this menu\n"

/-- The `switch (commandLower)` of lines 182-335. -/
def runSwitch (env : Env) (remoteJid : JsString) (isGroup isAdmin : Bool)
    (groupMetadata : Option GroupMetadata) (commandLower : JsString) (args : List JsString)
    (currentSettings : ChatSettings) : Dispatch :=
  -- args[0]?.toLowerCase()
  let arg0 : Option JsString := args.head?.map env.toLowerCase
  if commandLower = js "aion" then
    if !isGroup then Dispatch.say currentSettings (js "AI is always enabled in private chat.")
    else if !currentSettings.aiEnabled then
      Dispatch.say { currentSettings with aiEnabled := true }
        (js "🤖 AI chat enabled for this group.")
    else Dispatch.say currentSettings (js "AI chat is already enabled.")
  else if commandLower = js "aioff" then
    if !isGroup then Dispatch.say currentSettings (js "AI cannot be disabled in private chat.")
    else if currentSettings.aiEnabled then
      Dispatch.say { currentSettings with aiEnabled := false }
        (js "🤖 AI chat disabled for this group.")
    else Dispatch.say currentSettings (js "AI chat is already disabled.")
  else if commandLower = js "antilink" then
    if !isGroup then Dispatch.say currentSettings (js "This command is only for groups.")
    else if decide (arg0 = some (js "on")) && !currentSettings.antiLinkEnabled then
      Dispatch.say { currentSettings with antiLinkEnabled := true }
        (js "🔗 Anti-link enabled. Messages with links will be deleted.")
    else if decide (arg0 = some (js "off")) && currentSettings.antiLinkEnabled then
      Dispatch.say { currentSettings with antiLinkEnabled := false }
        (js "🔗 Anti-link disabled.")
    else
      Dispatch.say currentSettings
        (js "Anti-link is currently " ++ onOff currentSettings.antiLinkEnabled ++ js ". Use '" ++
          env.commandPrefix ++ js "antilink on/off'.")
  else if commandLower = js "welcome" then
    if !isGroup then Dispatch.say currentSettings (js "This command is only for groups.")
    else if decide (arg0 = some (js "on")) && !currentSettings.welcomeEnabled then
      Dispatch.say { currentSettings with welcomeEnabled := true }
        (js "👋 Welcome messages enabled.")
    else if decide (arg0 = some (js "off")) && currentSettings.welcomeEnabled then
      Dispatch.say { currentSettings with welcomeEnabled := false }
        (js "👋 Welcome messages disabled.")
    else
      Dispatch.say currentSettings
        (js "Welcome messages are currently " ++ onOff currentSettings.welcomeEnabled ++
          js ". Use '" ++ env.commandPrefix ++ js "welcome on/off'.")
  else if commandLower = js "antispam" then
    if !isGroup then Dispatch.say currentSettings (js "This command is only for groups.")
    else if decide (arg0 = some (js "on")) && !currentSettings.antiSpamEnabled then
      Dispatch.say { currentSettings with antiSpamEnabled := true }
        (js "🛡️ Anti-spam enabled (basic, placeholder logic).")
    else if decide (arg0 = some (js "off")) && currentSettings.antiSpamEnabled then
      Dispatch.say { currentSettings with antiSpamEnabled := false }
        (js "🛡️ Anti-spam disabled.")
    else
      Dispatch.say currentSettings
        (js "Anti-spam is currently " ++ onOff currentSettings.antiSpamEnabled ++ js ". Use '" ++
          env.commandPrefix ++ js "antispam on/off'.")
  else if commandLower = js "groupinfo" then
    if !isGroup then Dispatch.say currentSettings (js "This command only works in groups.")
    else
      match groupMetadata with
      | none => Dispatch.say currentSettings (js "Could not fetch group info.")
      | some md =>
        match md.participants with
        -- groupMetadata.participants.length on a missing list
        | none => ⟨currentSettings, none, [], some (Completion.threw Err.typeError)⟩
        | some ps =>
          Dispatch.say currentSettings
            (js "*Group Info:*\n*Subject:* " ++ md.subject ++ js "\n*Participants:* " ++
              decimal ps.length)
  else if commandLower = js "setgroupsubject" then
    if !isGroup then Dispatch.say currentSettings (js "This command only works in groups.")
    else
      -- line 251 reads the identifier `botIsAdmin`
      match lookupIdent
        (commandScope isAdmin groupMetadata ++ handlerScope isGroup ++ connectScope ++
          moduleScope) "botIsAdmin" with
      | none =>
        ⟨currentSettings, none, [], some (Completion.threw (Err.referenceError "botIsAdmin"))⟩
      | some botIsAdmin =>
        if !botIsAdmin.truthy then
          Dispatch.say currentSettings (js "I need to be an admin to change the group subject.")
        else
          let newSubject := joinSp args
          if !truthyStr newSubject then
            Dispatch.say currentSettings (js "Please provide a new subject.")
          else if env.ok Site.updateSubject then
            ⟨currentSettings, some (js "Group subject updated successfully."),
              [Effect.groupUpdateSubject remoteJid newSubject], none⟩
          else
            ⟨currentSettings, some (js "Failed to update group subject."),
              [Effect.groupUpdateSubject remoteJid newSubject], none⟩
  else if commandLower = js "sendimage" then
    match args.head? with
    | none => Dispatch.say currentSettings (js "Please provide a direct image URL.")
    | some imageUrl =>
      if !truthyStr imageUrl then
        Dispatch.say currentSettings (js "Please provide a direct image URL.")
      else if !env.validUrl imageUrl then
        -- new URL(imageUrl) throws inside the try
        Dispatch.say currentSettings
          (js "Failed to send image. Please ensure it is a direct, valid image URL.")
      else if env.ok Site.image then
        ⟨currentSettings, none, [Effect.sendImage remoteJid imageUrl (joinSp args.tail)], none⟩
      else
        ⟨currentSettings,
          some (js "Failed to send image. Please ensure it is a direct, valid image URL."),
          [Effect.sendImage remoteJid imageUrl (joinSp args.tail)], none⟩
  else if commandLower = js "leave" then
    if !isGroup then Dispatch.say currentSettings (js "I can only leave groups.")
    else
      let farewell := Effect.sendText remoteJid (js "Okay, leaving this group.") false
      if !env.ok Site.farewell then
        ⟨currentSettings, none, [farewell], some (Completion.threw (Err.rejected Site.farewell))⟩
      else if env.ok Site.leave then
        ⟨currentSettings, none, [farewell, Effect.groupLeave remoteJid],
          some Completion.returned⟩
      else
        ⟨currentSettings, some (js "Okay, leaving this group."),
          [farewell, Effect.groupLeave remoteJid], none⟩
  else if commandLower = js "myinfo" then
    Dispatch.say currentSettings
      (js "My JID is: " ++ (match env.botUser with | some id => id | none => js "undefined"))
  else if commandLower = js "menu" ∨ commandLower = js "help" then
    Dispatch.say currentSettings (menuText env isGroup currentSettings)
  else
    Dispatch.say currentSettings (js "Unknown command.")

/-- Line 152: `messageText.slice(config.commandPrefix.length).trim().split(/\s+/)`, the command
followed by its arguments. -/
def commandTokens (env : Env) (messageText : JsString) : List JsString :=
  splitWs (trim (slice messageText env.commandPrefix.length))

/-- The command branch of the handler, lines 152-344, for a chat whose settings object is
`currentSettings`. -/
def commandBlock (env : Env) (store : Store) (remoteJid senderJid messageText : JsString)
    (isGroup : Bool) (currentSettings : ChatSettings) : Outcome :=
  -- lines 152-153
  let tokens := commandTokens env messageText
  let command := tokens.headD []
  let args := tokens.tail
  let commandLower := env.toLowerCase command
  -- lines 154-165
  let (groupMetadata, fetched) : Option GroupMetadata × List Effect :=
    if isGroup then getGroupMetadata env remoteJid else (none, [])
  let isAdmin : Bool :=
    if isGroup then
      match groupMetadata with
      | some md => isGroupAdmin (some md) senderJid
      | none => false
    else false
  -- lines 170-177
  if isGroup && !isAdmin then
    if adminCommands.contains commandLower then
      ⟨store,
        fetched ++
          [Effect.sendText remoteJid (js "Sorry, only group admins can use this command.") true],
        if env.ok Site.rejection then Completion.returned
        else Completion.threw (Err.rejected Site.rejection)⟩
    else ⟨store, fetched, Completion.returned⟩
  else
  -- lines 179-335
  let d := runSwitch env remoteJid isGroup isAdmin groupMetadata commandLower args currentSettings
  let store : Store :=
    { store with chatSettings := setKey store.chatSettings remoteJid d.settings }
  match d.exit with
  | some completion => ⟨store, fetched ++ d.trace, completion⟩
  | none =>
    -- lines 337-344
    match d.replyText with
    | some replyText =>
      if truthyStr replyText then
        ⟨store, fetched ++ d.trace ++ [Effect.sendText remoteJid replyText true],
          if env.ok Site.reply then Completion.returned
          else Completion.threw (Err.rejected Site.reply)⟩
      else ⟨store, fetched ++ d.trace, Completion.returned⟩
    | none => ⟨store, fetched ++ d.trace, Completion.returned⟩

/-! ## The `messages.upsert` handler (`index.js:130-486`) -/

/-- The first message of a `messages.upsert` event, reduced to what the handler reads:
`msg.message`, `msg.key.fromMe`, `msg.key.remoteJid`, `msg.key.participant`,
`msg.message.conversation` and `msg.message.extendedTextMessage?.text`. -/
structure Msg where
  hasMessage : Bool
  fromMe : Bool
  remoteJid : Option JsString
  participant : Option JsString
  conversation : Option JsString
  extendedText : Option JsString

/-- The operator `a || b` on an optional string `a`. -/
def orElse (a : Option JsString) (b : JsString) : JsString :=
  match a with
  | some s => if truthyStr s then s else b
  | none => b

/-- Line 135: `msg.message.conversation || msg.message.extendedTextMessage?.text || ''`. -/
def Msg.messageText (msg : Msg) : JsString := orElse msg.conversation (orElse msg.extendedText [])

/-- Line 136: `msg.key.participant || msg.key.remoteJid`. -/
def Msg.senderJid (msg : Msg) (remoteJid : JsString) : JsString :=
  orElse msg.participant remoteJid

/-- The settings object of line 146. -/
def defaultSettings : ChatSettings := ⟨false, false, false, false⟩

/-- Lines 145-148: the settings object of a chat, created when the chat has none. -/
def settingsOf (store : Store) (remoteJid : JsString) : ChatSettings :=
  match store.chatSettings remoteJid with
  | some settings => settings
  | none => defaultSettings

/-- Lines 145-147: the maps once the chat has a settings object. -/
def ensureSettings (store : Store) (remoteJid : JsString) : Store :=
  { store with chatSettings := setKey store.chatSettings remoteJid (settingsOf store remoteJid) }

/-- What the moderation block leaves behind: `messageDeleted`, the requests made, and the
exception that left the block, if any. -/
structure Moderated where
  messageDeleted : Bool
  trace : List Effect
  error : Option Err

/-- Lines 356-403, the body of `if (isGroup)`, for a value `groupMetadata` of the identifier
read at line 356. -/
def moderation (env : Env) (groupMetadata : Option GroupMetadata)
    (remoteJid senderJid messageText : JsString) (currentSettings : ChatSettings) : Moderated :=
  -- line 356: groupMetadata || await getGroupMetadata(sock, remoteJid)
  let (metadata, fetched) : Option GroupMetadata × List Effect :=
    match groupMetadata with
    | some md => (some md, [])
    | none => getGroupMetadata env remoteJid
  match metadata with
  | none =>
    -- lines 357-358: both constants are false
    let (messageDeleted, trace) :=
      moderationChecks env remoteJid messageText currentSettings false false
    ⟨messageDeleted, fetched ++ trace, none⟩
  | some md =>
    -- line 357
    let senderIsAdmin := isGroupAdmin (some md) senderJid
    -- line 358: sock.user.id
    match env.botUser with
    | none => ⟨false, fetched, some Err.typeError⟩
    | some botId =>
      let botIsAdmin := isGroupAdmin (some md) botId
      let (messageDeleted, trace) :=
        moderationChecks env remoteJid messageText currentSettings senderIsAdmin botIsAdmin
      ⟨messageDeleted, fetched ++ trace, none⟩

/-- Lines 407-483: what the handler does after the moderation block, for the value of
`messageDeleted` and the requests made so far. -/
def afterModeration (env : Env) (store : Store) (remoteJid messageText : JsString)
    (isGroup : Bool) (currentSettings : ChatSettings) (messageDeleted : Bool)
    (trace : List Effect) : Outcome :=
  -- lines 407-410
  if messageDeleted then ⟨store, trace, Completion.returned⟩ else
  -- line 413
  let shouldRespondWithAI := !isGroup || currentSettings.aiEnabled
  if shouldRespondWithAI then
    -- lines 415-480
    let (stored, requests) :=
      aiSection env remoteJid messageText (store.conversationHistory remoteJid)
    ⟨{ store with conversationHistory := setKey store.conversationHistory remoteJid stored },
      trace ++ requests, Completion.returned⟩
  else ⟨store, trace, Completion.returned⟩

/-- Lines 360-483 for a message in a group, with the constants `senderIsAdmin` and
`botIsAdmin` of lines 357-358 given: the moderation checks, then what follows them. -/
def moderatedGroupMessage (env : Env) (store : Store) (remoteJid messageText : JsString)
    (currentSettings : ChatSettings) (senderIsAdmin botIsAdmin : Bool) : Outcome :=
  let (messageDeleted, trace) :=
    moderationChecks env remoteJid messageText currentSettings senderIsAdmin botIsAdmin
  afterModeration env store remoteJid messageText true currentSettings messageDeleted trace

/-- The handler of `messages.upsert` (lines 130-486) on the first message of the event. -/
def handleMessage (env : Env) (store : Store) (msg : Msg) : Outcome :=
  -- line 132
  if !msg.hasMessage || msg.fromMe then ⟨store, [], Completion.returned⟩ else
  -- lines 134-142
  match msg.remoteJid with
  | none => ⟨store, [], Completion.returned⟩
  | some remoteJid =>
    if !truthyStr remoteJid then ⟨store, [], Completion.returned⟩ else
    let messageText := msg.messageText
    let senderJid := msg.senderJid remoteJid
    let isGroup := endsWith remoteJid (js "@g.us")
    -- lines 145-148
    let currentSettings := settingsOf store remoteJid
    let store : Store := ensureSettings store remoteJid
    -- line 151
    if startsWith messageText env.commandPrefix then
      commandBlock env store remoteJid senderJid messageText isGroup currentSettings
    else
    -- lines 355-404
    let moderated : Moderated :=
      if isGroup then
        -- line 356 reads the identifier `groupMetadata`
        match lookupIdent (moderationScope ++ handlerScope isGroup ++ connectScope ++ moduleScope)
          "groupMetadata" with
        | none => ⟨false, [], some (Err.referenceError "groupMetadata")⟩
        | some value =>
          moderation env value.asMetadata remoteJid senderJid messageText currentSettings
      else ⟨false, [], none⟩
    match moderated.error with
    | some error => ⟨store, moderated.trace, Completion.threw error⟩
    | none =>
      -- lines 407-483
      afterModeration env store remoteJid messageText isGroup currentSettings
        moderated.messageDeleted moderated.trace

/-- Lines 424-438 on the contents of the stored array: the user message is pushed, then the
array is trimmed. -/
def appendAndTrim (history : List Message) (message : Message) : List Message :=
  trimHistory (history ++ [message])

/-- The handler on a sequence of events, one after the other, each with its own
environment: the maps after the last one. -/
def handleAll (store : Store) : List (Env × Msg) → Store
  | [] => store
  | (env, msg) :: rest => handleAll (handleMessage env store msg).store rest

/-! ## The `group-participants.update` handler (`index.js:98-126`) -/

/-- A `group-participants.update` event: `{ id, participants, action }` (line 100). -/
structure ParticipantsUpdate where
  id : JsString
  participants : List JsString
  action : JsString

/-- `p.split('@')[0]`: the part of `p` before its first `@`. -/
def beforeAt (p : JsString) : JsString := p.takeWhile (fun u => u != 0x40)

/-- Line 116: the participants, each as `@` followed by its part before `@`, joined by
spaces. -/
def mentionsOf (participants : List JsString) : JsString :=
  joinSp (participants.map (fun p => [0x40] ++ beforeAt p))

/-- Line 117: the text of the greeting. -/
def welcomeMsg (participants : List JsString) : JsString :=
  js "Welcome to the group, " ++ mentionsOf participants ++ js "! 🎉"

/-- The handler of `group-participants.update` (lines 98-126). -/
def handleParticipantsUpdate (env : Env) (store : Store) (update : ParticipantsUpdate) :
    Outcome :=
  -- line 101
  let settings := store.chatSettings update.id
  -- line 103: settings?.welcomeEnabled && action === 'add' && participants.length > 0
  let welcomeEnabled : Bool :=
    match settings with
    | some s => s.welcomeEnabled
    | none => false
  if welcomeEnabled && decide (update.action = js "add") &&
      decide (update.participants.length > 0) then
    -- lines 105-106
    let (metadata, fetched) := getGroupMetadata env update.id
    match metadata with
    | none => ⟨store, fetched, Completion.returned⟩
    | some md =>
      -- line 108: isGroupAdmin(metadata, sock.user.id)
      match env.botUser with
      | none => ⟨store, fetched, Completion.threw Err.typeError⟩
      | some botId =>
        -- lines 109-112
        if !isGroupAdmin (some md) botId then ⟨store, fetched, Completion.returned⟩
        else
          -- lines 116-123: the failure of the call is caught
          ⟨store,
            fetched ++
              [Effect.sendMentions update.id (welcomeMsg update.participants)
                update.participants],
            Completion.returned⟩
  else ⟨store, [], Completion.returned⟩

/-! ## Sequences of events -/

/-- An event delivered by the socket to one of the two handlers, with the environment in which
it is handled. -/
inductive Event
  | message (env : Env) (msg : Msg)
  | participants (env : Env) (update : ParticipantsUpdate)

/-- The handler that the event is delivered to. -/
def handleEvent (store : Store) : Event → Outcome
  | Event.message env msg => handleMessage env store msg
  | Event.participants env update => handleParticipantsUpdate env store update

/-- The maps after a sequence of events, handled one after the other. -/
def handleEvents (store : Store) : List Event → Store
  | [] => store
  | event :: rest => handleEvents (handleEvent store event).store rest

/-! ## Predicates used in the statements -/

/-- No entry after the first has role `system`: the history holds at most one system message,
and it is at position 0 when there is one. -/
def systemOnlyAtHead (history : List Message) : Bool :=
  history.tail.all (fun m => decide (m.role ≠ Role.system))

/-- No two consecutive entries have the same role. -/
def alternates : List Message → Bool
  | [] => true
  | [_] => true
  | a :: b :: rest => decide (a.role ≠ b.role) && alternates (b :: rest)

/-- The messages of a list that are not system messages. -/
def nonSystem (messages : List Message) : List Message :=
  messages.filter (fun m => decide (m.role ≠ Role.system))

/-- The request is a call of the AI provider. -/
def Effect.isProviderCall : Effect → Bool
  | Effect.messagesCreate _ _ => true
  | _ => false

/-- The request asks for the deletion of a message. -/
def Effect.isDelete : Effect → Bool
  | Effect.sendDelete _ => true
  | _ => false

/-- The request is a `sock.sendMessage` of any kind. -/
def Effect.isSend : Effect → Bool
  | Effect.sendText _ _ _ => true
  | Effect.sendImage _ _ _ => true
  | Effect.sendDelete _ => true
  | Effect.sendMentions _ _ _ => true
  | _ => false

/-- No request of the list calls the AI provider or asks for the deletion of a message. -/
def quiet (trace : List Effect) : Prop :=
  ∀ e ∈ trace, e.isProviderCall = false ∧ e.isDelete = false

/-- A word: not empty and without white space. -/
def isToken (w : JsString) : Prop := w ≠ [] ∧ ∀ u ∈ w, isWhiteSpace u = false

/-- White space only, possibly none. -/
def isBlank (s : JsString) : Prop := ∀ u ∈ s, isWhiteSpace u = true

/-- A separator: white space only, at least one unit. -/
def isSeparator (s : JsString) : Prop := s ≠ [] ∧ isBlank s

/-- The text made of words, each preceded by its separator. -/
def spaced : List (JsString × JsString) → JsString
  | [] => []
  | (separator, word) :: rest => separator ++ word ++ spaced rest

/-- No stored history holds a system message. -/
def Store.clean (store : Store) : Prop :=
  ∀ chat history, store.conversationHistory chat = some history →
    ∀ m ∈ history, m.role ≠ Role.system

/-- The call of the provider failed: it threw, or it answered without a leading text block. -/
def ApiOutcome.isFailure : ApiOutcome → Bool
  | ApiOutcome.response (some (block :: _)) => decide (block.type ≠ js "text")
  | _ => true

/-- The four flags of the settings of a chat. -/
inductive Flag
  | aiEnabled
  | antiLinkEnabled
  | welcomeEnabled
  | antiSpamEnabled
  deriving DecidableEq, Repr

/-- The value of a flag in the settings. -/
def Flag.get : Flag → ChatSettings → Bool
  | Flag.aiEnabled, s => s.aiEnabled
  | Flag.antiLinkEnabled, s => s.antiLinkEnabled
  | Flag.welcomeEnabled, s => s.welcomeEnabled
  | Flag.antiSpamEnabled, s => s.antiSpamEnabled

/-- The settings with one flag set to a value and the other three as they are. -/
def Flag.set : Flag → Bool → ChatSettings → ChatSettings
  | Flag.aiEnabled, v, s => { s with aiEnabled := v }
  | Flag.antiLinkEnabled, v, s => { s with antiLinkEnabled := v }
  | Flag.welcomeEnabled, v, s => { s with welcomeEnabled := v }
  | Flag.antiSpamEnabled, v, s => { s with antiSpamEnabled := v }

/-- The flag that a command with an `on`/`off` argument stands for. -/
def flagOfCommand (commandLower : JsString) : Option Flag :=
  if commandLower = js "antilink" then some Flag.antiLinkEnabled
  else if commandLower = js "welcome" then some Flag.welcomeEnabled
  else if commandLower = js "antispam" then some Flag.antiSpamEnabled
  else none

/-- The value that the first argument asks for: `on`, `off`, or neither. -/
def requested (arg0 : Option JsString) : Option Bool :=
  if arg0 = some (js "on") then some true
  else if arg0 = some (js "off") then some false
  else none

/-- The flag and the value that a toggle command asks for: `aion`, `aioff`, or one of
`antilink`, `welcome`, `antispam` with `on` or `off`. -/
def toggleOf (commandLower : JsString) (arg0 : Option JsString) : Option (Flag × Bool) :=
  if commandLower = js "aion" then some (Flag.aiEnabled, true)
  else if commandLower = js "aioff" then some (Flag.aiEnabled, false)
  else
    match flagOfCommand commandLower, requested arg0 with
    | some flag, some value => some (flag, value)
    | _, _ => none

/-- The reply that confirms a change of a flag. -/
def confirmation : Flag → Bool → JsString
  | Flag.aiEnabled, true => js "🤖 AI chat enabled for this group."
  | Flag.aiEnabled, false => js "🤖 AI chat disabled for this group."
  | Flag.antiLinkEnabled, true => js "🔗 Anti-link enabled. Messages with links will be deleted."
  | Flag.antiLinkEnabled, false => js "🔗 Anti-link disabled."
  | Flag.welcomeEnabled, true => js "👋 Welcome messages enabled."
  | Flag.welcomeEnabled, false => js "👋 Welcome messages disabled."
  | Flag.antiSpamEnabled, true => js "🛡️ Anti-spam enabled (basic, placeholder logic)."
  | Flag.antiSpamEnabled, false => js "🛡️ Anti-spam disabled."

/-- The reply that states the value a flag has: for `aiEnabled` that it is already enabled or
disabled, for the other flags `ON` or `OFF` followed by the usage hint. -/
def stateNotice (env : Env) : Flag → Bool → JsString
  | Flag.aiEnabled, true => js "AI chat is already enabled."
  | Flag.aiEnabled, false => js "AI chat is already disabled."
  | Flag.antiLinkEnabled, v =>
    js "Anti-link is currently " ++ onOff v ++ js ". Use '" ++ env.commandPrefix ++
      js "antilink on/off'."
  | Flag.welcomeEnabled, v =>
    js "Welcome messages are currently " ++ onOff v ++ js ". Use '" ++ env.commandPrefix ++
      js "welcome on/off'."
  | Flag.antiSpamEnabled, v =>
    js "Anti-spam is currently " ++ onOff v ++ js ". Use '" ++ env.commandPrefix ++
      js "antispam on/off'."

/-- The case labels of the `switch` of lines 182-335. -/
def knownCommands : List JsString :=
  [js "aion", js "aioff", js "antilink", js "welcome", js "antispam", js "groupinfo",
   js "setgroupsubject", js "sendimage", js "leave", js "myinfo", js "menu", js "help"]

/-! ## Sample inputs -/

/-- Lower-casing of the letters `A`-`Z`, as `toLowerCase` does on ASCII text. -/
def asciiLower (s : JsString) : JsString :=
  s.map (fun u => if 0x41 ≤ u ∧ u ≤ 0x5A then u + 32 else u)

/-- A private chat. -/
def alice : JsString := js "255700000001@s.whatsapp.net"

/-- A group chat. -/
def family : JsString := js "120363000000000001@g.us"

/-- A member of the group who is not one of its administrators. -/
def bob : JsString := js "255700000002@s.whatsapp.net"

/-- An administrator of the group. -/
def carol : JsString := js "255700000003@s.whatsapp.net"

/-- The account of the bot. -/
def bot : JsString := js "255700000009@s.whatsapp.net"

/-- Metadata of the group: the bot and `carol` are administrators, `bob` is not. -/
def familyMetadata : GroupMetadata :=
  ⟨js "Family",
    some [⟨bot, some (js "admin")⟩, ⟨carol, some (js "superadmin")⟩, ⟨bob, none⟩]⟩

/-- An environment in which every collaborator answers, and Claude replies `hello`. -/
def sampleEnv : Env where
  commandPrefix := js "!"
  toLowerCase := asciiLower
  validUrl := fun _ => true
  metadata := some familyMetadata
  botUser := some bot
  ok := fun _ => true
  anthropic := true
  api := ApiOutcome.response (some [⟨js "text", js "hello"⟩])

/-- A text message in the private chat. -/
def privateText (text : JsString) : Msg := ⟨true, false, some alice, none, some text, none⟩

/-- A text message of `bob` in the group. -/
def groupText (text : JsString) : Msg := ⟨true, false, some family, some bob, some text, none⟩

/-- A text message of `carol` in the group. -/
def adminText (text : JsString) : Msg := ⟨true, false, some family, some carol, some text, none⟩

/-- A store in which one chat has the given history and the given settings. -/
def storeWith (chat : JsString) (history : List Message) (settings : ChatSettings) : Store :=
  ⟨setKey (fun _ => none) chat history, setKey (fun _ => none) chat settings⟩

/-- Metadata of the group in which the bot is no administrator. -/
def familyWithoutBot : GroupMetadata :=
  ⟨js "Family", some [⟨bot, none⟩, ⟨carol, some (js "superadmin")⟩, ⟨bob, none⟩]⟩

/-- A text of `n` letters `a`. -/
def letters (n : Nat) : JsString := List.replicate n 0x61

/-- A history of nine entries whose first is a system message. -/
def nineWithSystem : List Message :=
  ⟨Role.system, js "Be brief."⟩ :: List.replicate 8 ⟨Role.user, js "ping"⟩

/-! ## Theorems -/

/-! ### Shared lemmas -/

/-- The slice from the first index found equals dropping the entries before the first hit. -/
theorem drop_findIdx (p : Message → Bool) (l : List Message) :
    (match l.findIdx? p with
      | some i => l.drop i
      | none => []) = l.dropWhile (fun m => !p m) := by
  induction l with
  | nil => simp
  | cons a t ih =>
    by_cases h : p a
    · simp [List.findIdx?_cons, List.dropWhile_cons, h]
    · simp only [List.findIdx?_cons, List.dropWhile_cons, h, Bool.not_false, if_true,
        Bool.false_eq_true, if_false, List.findIdx?_succ]
      rw [← ih]
      cases t.findIdx? p <;> simp

/-- The sequence `cleanedHistory` is what is left of the non-system messages once the entries
before the first user message are dropped. -/
theorem cleanedHistory_eq (messages : List Message) :
    cleanedHistory messages =
      (nonSystem messages).dropWhile (fun m => !decide (m.role = Role.user)) := by
  unfold cleanedHistory nonSystem
  exact drop_findIdx _ _

/-- Dropping a front of a list keeps its last element, when something is left. -/
theorem getLast?_dropWhile (q : Message → Bool) (l : List Message)
    (h : l.dropWhile q ≠ []) : (l.dropWhile q).getLast? = l.getLast? := by
  conv_rhs => rw [← List.takeWhile_append_dropWhile q l]
  rw [List.getLast?_append_of_ne_nil _ h]

/-- The id of a group chat is not the empty string. -/
theorem truthy_of_group (remoteJid : JsString) (h : endsWith remoteJid (js "@g.us") = true) :
    truthyStr remoteJid = true := by
  cases remoteJid with
  | nil => revert h; decide
  | cons a t => rfl

/-- A prefixed message with a chat id is handled by the command branch. -/
theorem handleMessage_command (env : Env) (store : Store) (msg : Msg) (remoteJid : JsString)
    (hmsg : msg.hasMessage = true) (hme : msg.fromMe = false)
    (hjid : msg.remoteJid = some remoteJid) (hne : truthyStr remoteJid = true)
    (hcmd : startsWith msg.messageText env.commandPrefix = true) :
    handleMessage env store msg =
      commandBlock env (ensureSettings store remoteJid) remoteJid (msg.senderJid remoteJid)
        msg.messageText (endsWith remoteJid (js "@g.us")) (settingsOf store remoteJid) := by
  simp [handleMessage, hmsg, hme, hjid, hne, hcmd]

/-- Creating the settings object of a chat changes the settings of no chat. -/
theorem settingsOf_ensure (store : Store) (remoteJid chat : JsString) :
    settingsOf (ensureSettings store remoteJid) chat = settingsOf store chat := by
  by_cases h : chat = remoteJid
  · subst h; simp [settingsOf, ensureSettings, setKey]
  · simp [settingsOf, ensureSettings, setKey, h]

/-- Writing back the settings object of a chat changes the settings of no chat. -/
theorem settingsOf_write_back (store : Store) (remoteJid chat : JsString) :
    settingsOf { ensureSettings store remoteJid with
        chatSettings :=
          setKey (ensureSettings store remoteJid).chatSettings remoteJid
            (settingsOf store remoteJid) } chat
      = settingsOf store chat := by
  by_cases h : chat = remoteJid
  · subst h; simp [settingsOf, ensureSettings, setKey]
  · simp [settingsOf, ensureSettings, setKey, h]

/-- The administrator check of lines 159-160. -/
theorem isGroupAdmin_some (md : Option GroupMetadata) (jid : JsString) :
    (match md with
      | some m => isGroupAdmin (some m) jid
      | none => false) = isGroupAdmin md jid := by
  cases md <;> rfl

/-- No scope that encloses line 251 declares `botIsAdmin`. -/
theorem botIsAdmin_unbound (isAdmin isGroup : Bool) (groupMetadata : Option GroupMetadata) :
    lookupIdent (commandScope isAdmin groupMetadata ++ handlerScope isGroup ++ connectScope ++
      moduleScope) "botIsAdmin" = none := by
  rfl

/-- No scope that encloses line 356 declares `groupMetadata`. -/
theorem groupMetadata_unbound (isGroup : Bool) :
    lookupIdent (moderationScope ++ handlerScope isGroup ++ connectScope ++ moduleScope)
      "groupMetadata" = none := by
  rfl

/-- A conditional between two quiet results is quiet. -/
theorem quiet_ite {c : Prop} [Decidable c] {a b : Dispatch} (ha : quiet a.trace)
    (hb : quiet b.trace) : quiet (if c then a else b).trace := by
  split <;> assumption

/-- Two quiet traces, one after the other, are quiet. -/
theorem quiet_append {a b : List Effect} (ha : quiet a) (hb : quiet b) : quiet (a ++ b) := by
  intro e he
  rcases List.mem_append.mp he with h | h
  · exact ha e h
  · exact hb e h

/-- The `switch` calls neither the provider nor asks for a deletion. -/
theorem runSwitch_quiet (env : Env) (remoteJid : JsString) (isGroup isAdmin : Bool)
    (groupMetadata : Option GroupMetadata) (commandLower : JsString) (args : List JsString)
    (currentSettings : ChatSettings) :
    quiet (runSwitch env remoteJid isGroup isAdmin groupMetadata commandLower args
      currentSettings).trace := by
  unfold runSwitch
  simp only [botIsAdmin_unbound]
  repeat' (first | apply quiet_ite | split)
  all_goals simp [quiet, Dispatch.say, Effect.isProviderCall, Effect.isDelete]

/-- The command branch calls neither the provider nor asks for a deletion, and leaves the
histories alone. -/
theorem commandBlock_frame (env : Env) (store : Store)
    (remoteJid senderJid messageText : JsString) (isGroup : Bool)
    (currentSettings : ChatSettings) :
    quiet (commandBlock env store remoteJid senderJid messageText isGroup currentSettings).trace ∧
    (commandBlock env store remoteJid senderJid messageText isGroup currentSettings
      ).store.conversationHistory = store.conversationHistory := by
  have hs := runSwitch_quiet env remoteJid isGroup
  have hf : quiet (if isGroup = true then getGroupMetadata env remoteJid else (none, [])).2 := by
    split <;> simp [quiet, getGroupMetadata, Effect.isProviderCall, Effect.isDelete]
  have h1 : ∀ t q, quiet [Effect.sendText remoteJid t q] := by
    intro t q; simp [quiet, Effect.isProviderCall, Effect.isDelete]
  unfold commandBlock
  generalize (if isGroup = true then getGroupMetadata env remoteJid else (none, [])) = p at hf
  obtain ⟨gm, fetched⟩ := p
  simp only [] at hf ⊢
  repeat' split
  all_goals
    refine ⟨?_, rfl⟩
    first
      | exact hf
      | exact quiet_append hf (h1 _ _)
      | exact quiet_append hf (hs _ _ _ _ _)
      | exact quiet_append (quiet_append hf (hs _ _ _ _ _)) (h1 _ _)

/-- A token that is no case label reaches the `default` case. -/
theorem runSwitch_unknown (env : Env) (remoteJid : JsString) (isGroup isAdmin : Bool)
    (groupMetadata : Option GroupMetadata) (commandLower : JsString) (args : List JsString)
    (currentSettings : ChatSettings) (h : commandLower ∉ knownCommands) :
    runSwitch env remoteJid isGroup isAdmin groupMetadata commandLower args currentSettings =
      Dispatch.say currentSettings (js "Unknown command.") := by
  simp only [knownCommands, List.mem_cons, List.mem_singleton, List.not_mem_nil, or_false,
    not_or] at h
  obtain ⟨h1, h2, h3, h4, h5, h6, h7, h8, h9, h10, h11, h12⟩ := h
  simp only [runSwitch, h1, h2, h3, h4, h5, h6, h7, h8, h9, h10, h11, h12, if_false, or_self]

/-- A token that is no case label is none of the commands of `adminCommands`. -/
theorem adminCommands_of_unknown (token : JsString) (h : token ∉ knownCommands) :
    adminCommands.contains token = false := by
  rw [Bool.eq_false_iff]
  intro hc
  apply h
  have hmem : token ∈ adminCommands := by simpa using hc
  simp only [adminCommands, List.mem_cons, List.mem_singleton, List.not_mem_nil,
    or_false] at hmem
  simp only [knownCommands, List.mem_cons, List.mem_singleton, List.not_mem_nil, or_false]
  rcases hmem with h | h | h | h | h <;> simp [h]

/-- The array stored by the AI section is the old one with the user message, trimmed once or
twice: the reply of the provider is in none of them. -/
theorem aiSection_stored (env : Env) (remoteJid messageText : JsString)
    (stored : Option (List Message)) :
    (aiSection env remoteJid messageText stored).1 =
        appendAndTrim (stored.getD []) ⟨Role.user, messageText⟩ ∨
    (aiSection env remoteJid messageText stored).1 =
        trimHistory (appendAndTrim (stored.getD []) ⟨Role.user, messageText⟩) := by
  unfold aiSection appendAndTrim
  simp only [Heap.push, Heap.read, Heap.alloc, List.getD_cons_zero, List.set_cons_zero,
    List.length_singleton, List.singleton_append, List.getD_cons_succ, List.length_cons,
    List.length_nil, List.cons_append, List.nil_append, List.set_cons_succ]
  repeat' split
  all_goals simp

/-- The index `startIndex` of line 429 is a truncated difference. -/
theorem startIndex_eq (n : Nat) :
    (if n > MAX_HISTORY_LENGTH then n - MAX_HISTORY_LENGTH else 0) = n - MAX_HISTORY_LENGTH := by
  split <;> omega

/-- The trim spelled out: the guard of line 430 never changes `startIndex`. -/
theorem trimHistory_eq (history : List Message) :
    trimHistory history =
      match history.head? with
      | some m =>
        if m.role = Role.system then m :: history.drop (history.length - MAX_HISTORY_LENGTH)
        else history.drop (history.length - MAX_HISTORY_LENGTH)
      | none => history.drop (history.length - MAX_HISTORY_LENGTH) := by
  unfold trimHistory
  simp only [startIndex_eq]
  have hdead : ∀ o : Option Message,
      (if (o.isSome && (history.length - MAX_HISTORY_LENGTH == 0) &&
          decide (history.length > MAX_HISTORY_LENGTH)) = true
        then 1 else history.length - MAX_HISTORY_LENGTH) = history.length - MAX_HISTORY_LENGTH := by
    intro o
    split
    · rename_i hc
      simp only [Bool.and_eq_true, beq_iff_eq, decide_eq_true_eq] at hc
      omega
    · rfl
  simp only [hdead]
  cases history.head? with
  | none => rfl
  | some m => by_cases hm : m.role = Role.system <;> simp [hm]

/-- On a history that does not start with a system message the trim keeps the last
`MAX_HISTORY_LENGTH` entries. -/
theorem trimHistory_eq_drop (history : List Message)
    (h : history.head?.map Message.role ≠ some Role.system) :
    trimHistory history = history.drop (history.length - MAX_HISTORY_LENGTH) := by
  rw [trimHistory_eq]
  cases hh : history.head? with
  | none => rfl
  | some m =>
    have hm : m.role ≠ Role.system := by simpa [hh] using h
    simp [hm]

/-- The trimmed history has at most one entry more than `MAX_HISTORY_LENGTH`. -/
theorem trimHistory_length_le (history : List Message) :
    (trimHistory history).length ≤ MAX_HISTORY_LENGTH + 1 := by
  rw [trimHistory_eq]
  cases history.head? with
  | none => simp only [List.length_drop]; omega
  | some m =>
    by_cases hm : m.role = Role.system
    · simp only [hm, if_true, List.length_cons, List.length_drop]; omega
    · simp only [hm, if_false, List.length_drop]; omega

/-- Without a leading system message the trimmed history has at most `MAX_HISTORY_LENGTH`
entries. -/
theorem trimHistory_length_le_window (history : List Message)
    (h : history.head?.map Message.role ≠ some Role.system) :
    (trimHistory history).length ≤ MAX_HISTORY_LENGTH := by
  rw [trimHistory_eq_drop history h]
  simp only [List.length_drop]
  omega
/-- The trimmed history ends with the message that was appended. -/
theorem appendAndTrim_getLast (history : List Message) (message : Message) :
    (appendAndTrim history message).getLast? = some message := by
  have hdrop : (history ++ [message]).drop ((history ++ [message]).length - MAX_HISTORY_LENGTH)
      = history.drop ((history ++ [message]).length - MAX_HISTORY_LENGTH) ++ [message] := by
    apply List.drop_append_of_le_length
    simp only [List.length_append, List.length_singleton, MAX_HISTORY_LENGTH]
    omega
  unfold appendAndTrim
  rw [trimHistory_eq, hdrop]
  cases (history ++ [message]).head? with
  | none => simp
  | some m =>
    by_cases hm : m.role = Role.system
    · simp only [hm, if_true]
      rw [← List.cons_append, List.getLast?_append_of_ne_nil _ (by simp)]
      rfl
    · simp [hm]

/-- A list that ends with a user message is passed to the provider: `cleanedHistory` is not
empty and ends with that message. -/
theorem cleanedHistory_getLast (messages : List Message) (text : JsString)
    (h : messages.getLast? = some ⟨Role.user, text⟩) :
    (cleanedHistory messages).getLast? = some ⟨Role.user, text⟩ := by
  obtain ⟨front, rfl⟩ : ∃ front, messages = front ++ [⟨Role.user, text⟩] := by
    rcases List.eq_nil_or_concat messages with hnil | ⟨front, last, hcat⟩
    · subst hnil; simp at h
    · subst hcat
      rw [List.concat_eq_append, List.getLast?_append_of_ne_nil _ (by simp)] at h
      simp only [List.getLast?_singleton, Option.some.injEq] at h
      exact ⟨front, by rw [List.concat_eq_append, h]⟩
  have hns : nonSystem (front ++ [⟨Role.user, text⟩]) = nonSystem front ++ [⟨Role.user, text⟩] := by
    simp [nonSystem, List.filter_append]
  have hne : (nonSystem front ++ [(⟨Role.user, text⟩ : Message)]).dropWhile
      (fun m => !decide (m.role = Role.user)) ≠ [] := by
    intro hnil
    have := (List.dropWhile_eq_nil_iff.mp hnil) ⟨Role.user, text⟩ (by simp)
    simp at this
  rw [cleanedHistory_eq, hns, getLast?_dropWhile _ _ hne]
  simp

/-- On a list that ends with a user message, and with the client constructed,
`getClaudeCompletion` makes one request and returns the message built from its outcome. -/
theorem getClaudeCompletion_of_last_user (env : Env) (messages : List Message)
    (text systemPrompt : JsString) (hcli : env.anthropic = true)
    (h : messages.getLast? = some ⟨Role.user, text⟩) :
    getClaudeCompletion env messages systemPrompt =
      (some (completionOf env.api),
        [Effect.messagesCreate (systemOf messages systemPrompt) (cleanedHistory messages)]) := by
  have hl := cleanedHistory_getLast messages text h
  have hne : cleanedHistory messages ≠ [] := by
    intro hnil; rw [hnil] at hl; simp at hl
  simp [getClaudeCompletion, hcli, hl, hne]

/-- The AI section when every call of the channel resolves, the client is constructed and the
message returned by `getClaudeCompletion` has a text: the stored array is the trimmed one,
trimmed again, and the text is sent. -/
theorem aiSection_answered (env : Env) (remoteJid messageText : JsString)
    (stored : Option (List Message)) (hcli : env.anthropic = true)
    (hok : ∀ site, env.ok site = true)
    (hcontent : truthyStr (completionOf env.api).content = true) :
    aiSection env remoteJid messageText stored =
      (trimHistory (appendAndTrim (stored.getD []) ⟨Role.user, messageText⟩),
        [Effect.presence true remoteJid,
         Effect.messagesCreate
           (systemOf (appendAndTrim (stored.getD []) ⟨Role.user, messageText⟩) [])
           (cleanedHistory (appendAndTrim (stored.getD []) ⟨Role.user, messageText⟩)),
         Effect.presence false remoteJid,
         Effect.sendText remoteJid (completionOf env.api).content false]) := by
  have hg := getClaudeCompletion_of_last_user env
    (appendAndTrim (stored.getD []) ⟨Role.user, messageText⟩) messageText [] hcli
    (appendAndTrim_getLast _ _)
  unfold appendAndTrim at hg ⊢
  unfold aiSection
  simp only [Heap.push, Heap.read, Heap.alloc, List.getD_cons_zero, List.set_cons_zero,
    List.length_singleton, List.singleton_append, List.getD_cons_succ, List.length_cons,
    List.length_nil, List.cons_append, List.nil_append, List.set_cons_succ, hok, hg, hcontent,
    Bool.not_true, Bool.false_eq_true, if_false, if_true]

/-- A history without a system message stays without one when trimmed. -/
theorem trimHistory_noSystem (history : List Message)
    (h : ∀ m ∈ history, m.role ≠ Role.system) :
    ∀ m ∈ trimHistory history, m.role ≠ Role.system := by
  have hhead : history.head?.map Message.role ≠ some Role.system := by
    cases history with
    | nil => simp
    | cons a t => simpa using h a (by simp)
  rw [trimHistory_eq_drop history hhead]
  intro m hm
  exact h m (List.mem_of_mem_drop hm)

/-- Trimming a trimmed history without a system message changes nothing. -/
theorem trimHistory_idem (history : List Message)
    (h : ∀ m ∈ history, m.role ≠ Role.system) :
    trimHistory (trimHistory history) = trimHistory history := by
  have hhead : ∀ l : List Message, (∀ m ∈ l, m.role ≠ Role.system) →
      l.head?.map Message.role ≠ some Role.system := by
    intro l hl
    cases l with
    | nil => simp
    | cons a t => simpa using hl a (by simp)
  have h2 := trimHistory_noSystem history h
  have hlen := trimHistory_length_le_window history (hhead _ h)
  rw [trimHistory_eq_drop (trimHistory history) (hhead _ h2)]
  have : (trimHistory history).length - MAX_HISTORY_LENGTH = 0 := by omega
  rw [this, List.drop_zero]

/-- The message returned after a failed call of the provider has a text. -/
theorem completionOf_failure_truthy (api : ApiOutcome) (h : api.isFailure = true) :
    truthyStr (completionOf api).content = true := by
  unfold completionOf
  split
  · rename_i block rest
    have hb : block.type ≠ js "text" := by simpa [ApiOutcome.isFailure] using h
    simp only [hb, if_false]
    decide
  · decide
  · decide
  · decide
  · split_ifs <;> decide
  · decide

/-- The stored history of a chat in a clean store holds no system message. -/
theorem clean_getD (store : Store) (h : store.clean) (chat : JsString) :
    ∀ m ∈ (store.conversationHistory chat).getD [], m.role ≠ Role.system := by
  cases hc : store.conversationHistory chat with
  | none => simp
  | some history => simpa using h chat history hc

/-- The maps of a freshly loaded module are clean. -/
theorem clean_empty : Store.empty.clean := by
  intro chat history h
  simp [Store.empty] at h

/-- What follows the moderation block, with the result of the AI section read by its
components. -/
theorem afterModeration_eq (env : Env) (store : Store) (remoteJid messageText : JsString)
    (isGroup : Bool) (currentSettings : ChatSettings) (messageDeleted : Bool)
    (trace : List Effect) :
    afterModeration env store remoteJid messageText isGroup currentSettings messageDeleted trace
      = if messageDeleted = true then ⟨store, trace, Completion.returned⟩
        else if (!isGroup || currentSettings.aiEnabled) = true then
          ⟨{ store with
              conversationHistory :=
                setKey store.conversationHistory remoteJid
                  (aiSection env remoteJid messageText
                    (store.conversationHistory remoteJid)).1 },
            trace ++
              (aiSection env remoteJid messageText (store.conversationHistory remoteJid)).2,
            Completion.returned⟩
        else ⟨store, trace, Completion.returned⟩ := by
  rfl

/-- What follows the moderation block keeps the store clean. -/
theorem afterModeration_clean (env : Env) (store : Store) (remoteJid messageText : JsString)
    (isGroup : Bool) (currentSettings : ChatSettings) (messageDeleted : Bool)
    (trace : List Effect) (h : store.clean) :
    (afterModeration env store remoteJid messageText isGroup currentSettings messageDeleted
      trace).store.clean := by
  rw [afterModeration_eq]
  split
  · exact h
  · split
    · intro chat history hc
      simp only [setKey] at hc
      by_cases hk : chat = remoteJid
      · simp only [hk, if_true, Option.some.injEq] at hc
        have hu : ∀ m ∈ (store.conversationHistory remoteJid).getD [] ++
            [(⟨Role.user, messageText⟩ : Message)], m.role ≠ Role.system := by
          intro m hm
          rcases List.mem_append.mp hm with hm | hm
          · exact clean_getD store h remoteJid m hm
          · simp only [List.mem_singleton] at hm; subst hm; simp
        have h1 := trimHistory_noSystem _ hu
        rcases aiSection_stored env remoteJid messageText (store.conversationHistory remoteJid)
          with hs | hs
        · rw [← hc, hs]; exact h1
        · rw [← hc, hs]; exact trimHistory_noSystem _ h1
      · simp only [hk, if_false] at hc
        exact h chat history hc
    · exact h

/-- The handler of messages keeps the store clean. -/
theorem handleMessage_clean (env : Env) (store : Store) (msg : Msg) (h : store.clean) :
    (handleMessage env store msg).store.clean := by
  have he : ∀ jid, (ensureSettings store jid).clean := fun jid => h
  unfold handleMessage
  split
  · exact h
  · split
    · exact h
    · split
      · exact h
      · dsimp only
        split
        · intro chat history hc
          rw [(commandBlock_frame _ _ _ _ _ _ _).2] at hc
          exact h chat history hc
        · split
          · exact he _
          · exact afterModeration_clean _ _ _ _ _ _ _ _ (he _)

/-- Every store reached from the empty one by handling messages is clean. -/
theorem handleAll_clean (events : List (Env × Msg)) (store : Store) (h : store.clean) :
    (handleAll store events).clean := by
  induction events generalizing store with
  | nil => exact h
  | cons e rest ih => exact ih _ (handleMessage_clean e.1 store e.2 h)

/-- The first argument asks for `on`. -/
theorem requested_true (a : Option JsString) : requested a = some true ↔ a = some (js "on") := by
  unfold requested
  split_ifs with h1 h2
  · simp [h1]
  · simp only [Option.some.injEq, Bool.false_eq_true, false_iff]; exact h1
  · simp only [false_iff]; exact h1

/-- The first argument asks for `off`. -/
theorem requested_false (a : Option JsString) :
    requested a = some false ↔ a = some (js "off") := by
  unfold requested
  split_ifs with h1 h2
  · rw [h1]
    simp only [Option.some.injEq, Bool.true_eq_false, false_iff]
    decide
  · simp [h2]
  · simp only [false_iff]; exact h2

/-- The case `aion` of the `switch`, in a group. -/
theorem runSwitch_aion (env : Env) (remoteJid : JsString) (isAdmin : Bool)
    (groupMetadata : Option GroupMetadata) (args : List JsString) (s : ChatSettings) :
    runSwitch env remoteJid true isAdmin groupMetadata (js "aion") args s =
      if s.aiEnabled = false then
        Dispatch.say { s with aiEnabled := true } (js "🤖 AI chat enabled for this group.")
      else Dispatch.say s (js "AI chat is already enabled.") := by
  unfold runSwitch
  rw [if_pos rfl]
  simp

/-- The case `aioff` of the `switch`, in a group. -/
theorem runSwitch_aioff (env : Env) (remoteJid : JsString) (isAdmin : Bool)
    (groupMetadata : Option GroupMetadata) (args : List JsString) (s : ChatSettings) :
    runSwitch env remoteJid true isAdmin groupMetadata (js "aioff") args s =
      if s.aiEnabled = true then
        Dispatch.say { s with aiEnabled := false } (js "🤖 AI chat disabled for this group.")
      else Dispatch.say s (js "AI chat is already disabled.") := by
  unfold runSwitch
  rw [if_neg (by decide), if_pos rfl]
  simp

/-- The case `antilink` of the `switch`, in a group. -/
theorem runSwitch_antilink (env : Env) (remoteJid : JsString) (isAdmin : Bool)
    (groupMetadata : Option GroupMetadata) (args : List JsString) (s : ChatSettings) :
    runSwitch env remoteJid true isAdmin groupMetadata (js "antilink") args s =
      if requested (args.head?.map env.toLowerCase) = some true ∧ s.antiLinkEnabled = false then
        Dispatch.say { s with antiLinkEnabled := true }
          (js "🔗 Anti-link enabled. Messages with links will be deleted.")
      else if requested (args.head?.map env.toLowerCase) = some false ∧
          s.antiLinkEnabled = true then
        Dispatch.say { s with antiLinkEnabled := false } (js "🔗 Anti-link disabled.")
      else Dispatch.say s (stateNotice env Flag.antiLinkEnabled s.antiLinkEnabled) := by
  unfold runSwitch
  rw [if_neg (by decide), if_neg (by decide), if_pos rfl]
  simp [requested_true, requested_false, stateNotice]

/-- The case `welcome` of the `switch`, in a group. -/
theorem runSwitch_welcome (env : Env) (remoteJid : JsString) (isAdmin : Bool)
    (groupMetadata : Option GroupMetadata) (args : List JsString) (s : ChatSettings) :
    runSwitch env remoteJid true isAdmin groupMetadata (js "welcome") args s =
      if requested (args.head?.map env.toLowerCase) = some true ∧ s.welcomeEnabled = false then
        Dispatch.say { s with welcomeEnabled := true } (js "👋 Welcome messages enabled.")
      else if requested (args.head?.map env.toLowerCase) = some false ∧
          s.welcomeEnabled = true then
        Dispatch.say { s with welcomeEnabled := false } (js "👋 Welcome messages disabled.")
      else Dispatch.say s (stateNotice env Flag.welcomeEnabled s.welcomeEnabled) := by
  unfold runSwitch
  rw [if_neg (by decide), if_neg (by decide), if_neg (by decide), if_pos rfl]
  simp [requested_true, requested_false, stateNotice]

/-- The case `antispam` of the `switch`, in a group. -/
theorem runSwitch_antispam (env : Env) (remoteJid : JsString) (isAdmin : Bool)
    (groupMetadata : Option GroupMetadata) (args : List JsString) (s : ChatSettings) :
    runSwitch env remoteJid true isAdmin groupMetadata (js "antispam") args s =
      if requested (args.head?.map env.toLowerCase) = some true ∧ s.antiSpamEnabled = false then
        Dispatch.say { s with antiSpamEnabled := true }
          (js "🛡️ Anti-spam enabled (basic, placeholder logic).")
      else if requested (args.head?.map env.toLowerCase) = some false ∧
          s.antiSpamEnabled = true then
        Dispatch.say { s with antiSpamEnabled := false } (js "🛡️ Anti-spam disabled.")
      else Dispatch.say s (stateNotice env Flag.antiSpamEnabled s.antiSpamEnabled) := by
  unfold runSwitch
  rw [if_neg (by decide), if_neg (by decide), if_neg (by decide), if_neg (by decide),
    if_pos rfl]
  simp [requested_true, requested_false, stateNotice]

/-- In a group, a toggle command leaves the settings with its flag at the requested value,
and replies with the confirmation when the flag changes, with the notice of the state when it
does not. -/
theorem runSwitch_toggle (env : Env) (remoteJid : JsString) (isAdmin : Bool)
    (groupMetadata : Option GroupMetadata) (commandLower : JsString) (args : List JsString)
    (s : ChatSettings) (flag : Flag) (value : Bool)
    (h : toggleOf commandLower (args.head?.map env.toLowerCase) = some (flag, value)) :
    runSwitch env remoteJid true isAdmin groupMetadata commandLower args s =
      Dispatch.say (flag.set value s)
        (if flag.get s = value then stateNotice env flag value else confirmation flag value) := by
  unfold toggleOf at h
  split_ifs at h with h1 h2
  · simp only [Option.some.injEq, Prod.mk.injEq] at h
    obtain ⟨rfl, rfl⟩ := h
    subst h1
    rw [runSwitch_aion]
    obtain ⟨ai, al, we, sp⟩ := s
    cases ai <;> simp [Flag.get, Flag.set, stateNotice, confirmation]
  · simp only [Option.some.injEq, Prod.mk.injEq] at h
    obtain ⟨rfl, rfl⟩ := h
    subst h2
    rw [runSwitch_aioff]
    obtain ⟨ai, al, we, sp⟩ := s
    cases ai <;> simp [Flag.get, Flag.set, stateNotice, confirmation]
  · split at h
    · rename_i f v hf hv
      simp only [Option.some.injEq, Prod.mk.injEq] at h
      obtain ⟨rfl, rfl⟩ := h
      unfold flagOfCommand at hf
      obtain ⟨ai, al, we, sp⟩ := s
      split_ifs at hf with c1 c2 c3
      · cases hf; subst c1
        rw [runSwitch_antilink]
        cases v <;> cases al <;> simp [hv, Flag.get, Flag.set, stateNotice, confirmation]
      · cases hf; subst c2
        rw [runSwitch_welcome]
        cases v <;> cases we <;> simp [hv, Flag.get, Flag.set, stateNotice, confirmation]
      · cases hf; subst c3
        rw [runSwitch_antispam]
        cases v <;> cases sp <;> simp [hv, Flag.get, Flag.set, stateNotice, confirmation]
    · cases h

/-- In a group, one of `antilink`, `welcome`, `antispam` whose first argument is neither `on`
nor `off` leaves the settings as they are and replies with the notice of the state. -/
theorem runSwitch_state (env : Env) (remoteJid : JsString) (isAdmin : Bool)
    (groupMetadata : Option GroupMetadata) (commandLower : JsString) (args : List JsString)
    (s : ChatSettings) (flag : Flag)
    (hf : flagOfCommand commandLower = some flag)
    (hv : requested (args.head?.map env.toLowerCase) = none) :
    runSwitch env remoteJid true isAdmin groupMetadata commandLower args s =
      Dispatch.say s (stateNotice env flag (flag.get s)) := by
  unfold flagOfCommand at hf
  split_ifs at hf with c1 c2 c3
  · cases hf; subst c1
    rw [runSwitch_antilink]
    simp [hv, Flag.get]
  · cases hf; subst c2
    rw [runSwitch_welcome]
    simp [hv, Flag.get]
  · cases hf; subst c3
    rw [runSwitch_antispam]
    simp [hv, Flag.get]

/-- The settings of a chat once the settings object of a chat has been written. -/
theorem settingsOf_setKey (history : JsString → Option (List Message))
    (settings : JsString → Option ChatSettings) (remoteJid chat : JsString)
    (written : ChatSettings) :
    settingsOf ⟨history, setKey settings remoteJid written⟩ chat =
      if chat = remoteJid then written else settingsOf ⟨history, settings⟩ chat := by
  by_cases h : chat = remoteJid <;> simp [settingsOf, setKey, h]

/-- In a group, a command of an administrator whose case only sets `replyText`: the settings
object is written, the metadata is fetched and the reply is sent. -/
theorem handleMessage_group_admin_say (env : Env) (store : Store) (msg : Msg)
    (remoteJid : JsString) (written : ChatSettings) (text : JsString)
    (hmsg : msg.hasMessage = true) (hme : msg.fromMe = false)
    (hjid : msg.remoteJid = some remoteJid)
    (hgroup : endsWith remoteJid (js "@g.us") = true)
    (hpre : startsWith msg.messageText env.commandPrefix = true)
    (hadmin : isGroupAdmin env.metadata (msg.senderJid remoteJid) = true)
    (hsw : runSwitch env remoteJid true true env.metadata
        (env.toLowerCase ((commandTokens env msg.messageText).headD []))
        (commandTokens env msg.messageText).tail (settingsOf store remoteJid)
      = Dispatch.say written text)
    (ht : truthyStr text = true) :
    handleMessage env store msg =
      ⟨⟨store.conversationHistory,
          setKey (ensureSettings store remoteJid).chatSettings remoteJid written⟩,
        [Effect.groupMetadata remoteJid, Effect.sendText remoteJid text true],
        if env.ok Site.reply = true then Completion.returned
        else Completion.threw (Err.rejected Site.reply)⟩ := by
  rw [handleMessage_command env store msg remoteJid hmsg hme hjid (truthy_of_group _ hgroup)
    hpre]
  simp only [commandBlock, hgroup, getGroupMetadata, isGroupAdmin_some, hadmin, if_true,
    Bool.not_true, Bool.and_false, Bool.false_eq_true, if_false, hsw, Dispatch.say, ht]
  rfl

/-- The notice of a state starts with a letter, the confirmation of a change with the first
half of an emoji. -/
theorem stateNotice_ne_confirmation (env : Env) (flag : Flag) (value : Bool) :
    stateNotice env flag value ≠ confirmation flag value := by
  have h1 : ∃ a rest, stateNotice env flag value = a :: rest ∧ a < 128 := by
    cases flag <;> cases value <;> exact ⟨_, _, rfl, by decide⟩
  have h2 : ∃ b rest, confirmation flag value = b :: rest ∧ 128 ≤ b := by
    cases flag <;> cases value <;> exact ⟨_, _, rfl, by decide⟩
  obtain ⟨a, r1, e1, ha⟩ := h1
  obtain ⟨b, r2, e2, hb⟩ := h2
  rw [e1, e2]
  intro h
  injection h with hab _
  omega

/-- The replies of the toggle commands are not empty. -/
theorem toggle_reply_truthy (env : Env) (flag : Flag) (value : Bool) :
    truthyStr (stateNotice env flag value) = true ∧
    truthyStr (confirmation flag value) = true := by
  cases flag <;> cases value <;> exact ⟨rfl, rfl⟩

/-- Reading a word: its units are added to the token being read. -/
theorem splitWsAux_word (a : Nat) (t : JsString) (cur : List Nat) (inSep : Bool)
    (rest : JsString) (h : ∀ u ∈ a :: t, isWhiteSpace u = false) :
    splitWsAux cur inSep (a :: t ++ rest) = splitWsAux ((a :: t).reverse ++ cur) false rest := by
  induction t generalizing a cur inSep with
  | nil =>
    have ha : isWhiteSpace a = false := h a (by simp)
    simp [splitWsAux, ha]
  | cons b t ih =>
    have ha : isWhiteSpace a = false := h a (by simp)
    have hb : ∀ u ∈ b :: t, isWhiteSpace u = false := fun u hu => h u (by simp [hu])
    have := ih b (a :: cur) false hb
    simp only [List.cons_append, splitWsAux, ha, Bool.false_eq_true, if_false] at this ⊢
    rw [this]
    simp

/-- Inside a separator the white space is skipped. -/
theorem splitWsAux_blank (s : JsString) (cur : List Nat) (rest : JsString) (h : isBlank s) :
    splitWsAux cur true (s ++ rest) = splitWsAux cur true rest := by
  induction s with
  | nil => rfl
  | cons a t ih =>
    have ha : isWhiteSpace a = true := h a (by simp)
    have ht : isBlank t := fun u hu => h u (by simp [hu])
    simp only [List.cons_append, splitWsAux, ha, if_true]
    exact ih ht

/-- A separator ends the token being read. -/
theorem splitWsAux_separator (s : JsString) (cur : List Nat) (rest : JsString)
    (h : isSeparator s) :
    splitWsAux cur false (s ++ rest) = cur.reverse :: splitWsAux [] true rest := by
  obtain ⟨hne, hb⟩ := h
  cases s with
  | nil => exact absurd rfl hne
  | cons a t =>
    have ha : isWhiteSpace a = true := hb a (by simp)
    have ht : isBlank t := fun u hu => hb u (by simp [hu])
    simp only [List.cons_append, splitWsAux, ha, if_true, Bool.false_eq_true, if_false]
    exact congrArg _ (splitWsAux_blank t [] rest ht)

/-- The pieces of a text made of words and separators are the words. -/
theorem splitWsAux_spaced (pairs : List (JsString × JsString)) (cur : List Nat)
    (h : ∀ p ∈ pairs, isSeparator p.1 ∧ isToken p.2) :
    splitWsAux cur false (spaced pairs) = cur.reverse :: pairs.map Prod.snd := by
  induction pairs generalizing cur with
  | nil => simp [spaced, splitWsAux]
  | cons p rest ih =>
    obtain ⟨separator, word⟩ := p
    have hp := h (separator, word) (by simp)
    have hrest : ∀ q ∈ rest, isSeparator q.1 ∧ isToken q.2 := fun q hq => h q (by simp [hq])
    obtain ⟨hsep, hne, hword⟩ := hp
    cases word with
    | nil => exact absurd rfl hne
    | cons a t =>
      simp only [spaced, List.append_assoc]
      rw [splitWsAux_separator separator cur _ hsep, splitWsAux_word a t [] true _ hword,
        List.append_nil, ih _ hrest]
      simp

/-- Leading white space is dropped. -/
theorem dropWhile_blank_append (s x : JsString) (h : isBlank s) :
    (s ++ x).dropWhile isWhiteSpace = x.dropWhile isWhiteSpace := by
  induction s with
  | nil => rfl
  | cons a t ih =>
    have ha : isWhiteSpace a = true := h a (by simp)
    simp only [List.cons_append, List.dropWhile_cons, ha, if_true]
    exact ih (fun u hu => h u (by simp [hu]))

/-- A text that starts and ends outside white space, between two blanks, is what `trim`
keeps. -/
theorem trim_blank (l body r : JsString) (hl : isBlank l) (hr : isBlank r)
    (hhead : ∃ a t, body = a :: t ∧ isWhiteSpace a = false)
    (hlast : ∃ front c, body = front ++ [c] ∧ isWhiteSpace c = false) :
    trim (l ++ body ++ r) = body := by
  obtain ⟨a, t, hb, ha⟩ := hhead
  obtain ⟨front, c, hb2, hc⟩ := hlast
  unfold trim
  rw [List.append_assoc, dropWhile_blank_append l _ hl]
  have h1 : (body ++ r).dropWhile isWhiteSpace = body ++ r := by
    rw [hb]; simp [List.dropWhile_cons, ha]
  rw [h1, List.reverse_append]
  have hrr : isBlank r.reverse := fun u hu => hr u (List.mem_reverse.mp hu)
  rw [dropWhile_blank_append r.reverse _ hrr]
  have h2 : body.reverse.dropWhile isWhiteSpace = body.reverse := by
    rw [hb2]; simp [List.dropWhile_cons, hc]
  rw [h2, List.reverse_reverse]

/-- A text made of a word followed by separated words ends outside white space. -/
theorem spaced_last (pairs : List (JsString × JsString)) (word : JsString)
    (hw : isToken word) (h : ∀ p ∈ pairs, isSeparator p.1 ∧ isToken p.2) :
    ∃ front c, word ++ spaced pairs = front ++ [c] ∧ isWhiteSpace c = false := by
  induction pairs generalizing word with
  | nil =>
    obtain ⟨hne, hall⟩ := hw
    rcases List.eq_nil_or_concat word with hnil | ⟨front, c, hcat⟩
    · exact absurd hnil hne
    · refine ⟨front, c, by simp [spaced, hcat], hall c (by simp [hcat])⟩
  | cons p rest ih =>
    obtain ⟨separator, w⟩ := p
    have hp := h (separator, w) (by simp)
    obtain ⟨front, c, he, hc⟩ := ih w hp.2 (fun q hq => h q (by simp [hq]))
    refine ⟨word ++ separator ++ front, c, ?_, hc⟩
    simp only [spaced, List.append_assoc]
    rw [he]

/-- Line 152 on a text made of the prefix, then words separated by white space, with white
space around them: the words. -/
theorem commandTokens_spaced (env : Env) (l r word : JsString)
    (pairs : List (JsString × JsString)) (hl : isBlank l) (hr : isBlank r) (hw : isToken word)
    (h : ∀ p ∈ pairs, isSeparator p.1 ∧ isToken p.2) :
    commandTokens env (env.commandPrefix ++ (l ++ (word ++ spaced pairs) ++ r)) =
      word :: pairs.map Prod.snd := by
  have hhead : ∃ a t, word ++ spaced pairs = a :: t ∧ isWhiteSpace a = false := by
    obtain ⟨hne, hall⟩ := hw
    cases word with
    | nil => exact absurd rfl hne
    | cons a t => exact ⟨a, t ++ spaced pairs, rfl, hall a (by simp)⟩
  unfold commandTokens slice
  rw [List.drop_left, trim_blank l _ r hl hr hhead (spaced_last pairs word hw h)]
  obtain ⟨hne, hall⟩ := hw
  cases word with
  | nil => exact absurd rfl hne
  | cons a t =>
    unfold splitWs
    rw [splitWsAux_word a t [] false _ hall, List.append_nil, splitWsAux_spaced pairs _ h]
    simp

/-- The command branch reads the text only through the lower-cased command and the
arguments. -/
theorem commandBlock_tokens (env : Env) (store : Store) (remoteJid senderJid : JsString)
    (text1 text2 : JsString) (isGroup : Bool) (currentSettings : ChatSettings)
    (hcommand : env.toLowerCase ((commandTokens env text1).headD [])
      = env.toLowerCase ((commandTokens env text2).headD []))
    (hargs : (commandTokens env text1).tail = (commandTokens env text2).tail) :
    commandBlock env store remoteJid senderJid text1 isGroup currentSettings =
      commandBlock env store remoteJid senderJid text2 isGroup currentSettings := by
  unfold commandBlock
  simp only [hcommand, hargs]

/-- In a list of participants with distinct ids, the entry found for an id is the entry
listed for it. -/
theorem find?_participant (ps : List Participant) (jid : JsString) (entry : Participant)
    (h : (ps.map Participant.id).Nodup) :
    ps.find? (fun q => decide (q.id = jid)) = some entry ↔ entry ∈ ps ∧ entry.id = jid := by
  induction ps with
  | nil => simp
  | cons p rest ih =>
    simp only [List.map_cons, List.nodup_cons, List.mem_map, not_exists, not_and] at h
    obtain ⟨hp, hrest⟩ := h
    by_cases hid : p.id = jid
    · simp only [List.find?_cons, hid, decide_True, Option.some.injEq, List.mem_cons]
      constructor
      · intro he; subst he; exact ⟨Or.inl rfl, hid⟩
      · rintro ⟨hmem | hmem, he⟩
        · exact hmem.symm
        · exact absurd (he.trans hid.symm) (hp entry hmem)
    · simp only [List.find?_cons, hid, decide_False, List.mem_cons]
      rw [ih hrest]
      constructor
      · rintro ⟨hmem, he⟩; exact ⟨Or.inr hmem, he⟩
      · rintro ⟨hmem | hmem, he⟩
        · subst hmem; exact absurd he hid
        · exact ⟨hmem, he⟩

/-- The function `isGroupAdmin` on metadata that is present. -/
theorem isGroupAdmin_iff (md : GroupMetadata) (jid : JsString) :
    isGroupAdmin (some md) jid = true ↔
      ∃ ps entry, md.participants = some ps ∧
        ps.find? (fun q => decide (q.id = jid)) = some entry ∧
        (entry.admin = some (js "admin") ∨ entry.admin = some (js "superadmin")) := by
  cases hps : md.participants with
  | none => simp [isGroupAdmin, hps]
  | some ps =>
    cases hf : ps.find? (fun q => decide (q.id = jid)) with
    | none => simp [isGroupAdmin, hps, hf]
    | some entry => simp [isGroupAdmin, hps, hf]

/-- A message without the command prefix in a group: the settings object exists, and reading
`groupMetadata` at line 356 ends the handler. -/
theorem handleMessage_group_plain (env : Env) (store : Store) (msg : Msg) (remoteJid : JsString)
    (hmsg : msg.hasMessage = true) (hme : msg.fromMe = false)
    (hjid : msg.remoteJid = some remoteJid)
    (hgroup : endsWith remoteJid (js "@g.us") = true)
    (hpre : startsWith msg.messageText env.commandPrefix = false) :
    handleMessage env store msg =
      ⟨ensureSettings store remoteJid, [], Completion.threw (Err.referenceError "groupMetadata")⟩
    := by
  unfold handleMessage
  simp only [hmsg, hme, hjid, truthy_of_group _ hgroup, hpre, hgroup, groupMetadata_unbound,
    Bool.not_true, Bool.or_self, Bool.false_eq_true, if_false, if_true]

/-- What follows the moderation block keeps the stored histories within the window, in a
clean store. -/
theorem afterModeration_bounded (env : Env) (store : Store) (remoteJid messageText : JsString)
    (isGroup : Bool) (currentSettings : ChatSettings) (messageDeleted : Bool)
    (trace : List Effect) (hc : store.clean)
    (hb : ∀ chat history, store.conversationHistory chat = some history →
      history.length ≤ MAX_HISTORY_LENGTH) :
    ∀ chat history,
      (afterModeration env store remoteJid messageText isGroup currentSettings messageDeleted
        trace).store.conversationHistory chat = some history →
      history.length ≤ MAX_HISTORY_LENGTH := by
  rw [afterModeration_eq]
  split
  · exact hb
  · split
    · intro chat history hs
      simp only [setKey] at hs
      by_cases hk : chat = remoteJid
      · simp only [hk, if_true, Option.some.injEq] at hs
        have hu : ∀ m ∈ (store.conversationHistory remoteJid).getD [] ++
            [(⟨Role.user, messageText⟩ : Message)], m.role ≠ Role.system := by
          intro m hm
          rcases List.mem_append.mp hm with hm | hm
          · exact clean_getD store hc remoteJid m hm
          · simp only [List.mem_singleton] at hm; subst hm; simp
        have hhead : ∀ l : List Message, (∀ m ∈ l, m.role ≠ Role.system) →
            l.head?.map Message.role ≠ some Role.system := by
          intro l hl
          cases l with
          | nil => simp
          | cons a t => simpa using hl a (by simp)
        have h1 := trimHistory_length_le_window _ (hhead _ hu)
        have h2 := trimHistory_length_le_window _ (hhead _ (trimHistory_noSystem _ hu))
        rcases aiSection_stored env remoteJid messageText (store.conversationHistory remoteJid)
          with he | he
        · rw [← hs, he]; exact h1
        · rw [← hs, he]; exact h2
      · simp only [hk, if_false] at hs
        exact hb chat history hs
    · exact hb

/-- The handler of messages keeps the stored histories within the window, in a clean
store. -/
theorem handleMessage_bounded (env : Env) (store : Store) (msg : Msg) (hc : store.clean)
    (hb : ∀ chat history, store.conversationHistory chat = some history →
      history.length ≤ MAX_HISTORY_LENGTH) :
    ∀ chat history, (handleMessage env store msg).store.conversationHistory chat = some history →
      history.length ≤ MAX_HISTORY_LENGTH := by
  unfold handleMessage
  split
  · exact hb
  · split
    · exact hb
    · split
      · exact hb
      · dsimp only
        split
        · intro chat history hs
          rw [(commandBlock_frame _ _ _ _ _ _ _).2] at hs
          exact hb chat history hs
        · split
          · exact hb
          · exact afterModeration_bounded _ _ _ _ _ _ _ _ hc hb

/-- The handler of membership events leaves the maps as they are. -/
theorem handleParticipantsUpdate_store (env : Env) (store : Store)
    (update : ParticipantsUpdate) : (handleParticipantsUpdate env store update).store = store := by
  unfold handleParticipantsUpdate
  simp only [getGroupMetadata]
  repeat' split
  all_goals rfl

/-- Every store reached from a clean store with histories within the window is clean, with
histories within the window. -/
theorem handleEvents_invariant (events : List Event) (store : Store) (hc : store.clean)
    (hb : ∀ chat history, store.conversationHistory chat = some history →
      history.length ≤ MAX_HISTORY_LENGTH) :
    (handleEvents store events).clean ∧
    ∀ chat history, (handleEvents store events).conversationHistory chat = some history →
      history.length ≤ MAX_HISTORY_LENGTH := by
  induction events generalizing store with
  | nil => exact ⟨hc, hb⟩
  | cons event rest ih =>
    cases event with
    | message env msg =>
      exact ih _ (handleMessage_clean env store msg hc) (handleMessage_bounded env store msg hc hb)
    | participants env update =>
      simp only [handleEvents, handleEvent, handleParticipantsUpdate_store]
      exact ih _ hc hb

/-- The requests made by `getClaudeCompletion` are at most the one built from its
arguments. -/
theorem getClaudeCompletion_calls (env : Env) (messages : List Message)
    (systemPrompt : JsString) :
    ∀ e ∈ (getClaudeCompletion env messages systemPrompt).2,
      e = Effect.messagesCreate (systemOf messages systemPrompt) (cleanedHistory messages) := by
  unfold getClaudeCompletion
  split
  · simp
  · dsimp only
    split <;> simp

/-- `getClaudeCompletion` on a list that ends with a user message does not return `null`. -/
theorem getClaudeCompletion_ne_null (env : Env) (messages : List Message)
    (text systemPrompt : JsString) (h : messages.getLast? = some ⟨Role.user, text⟩) :
    (getClaudeCompletion env messages systemPrompt).1 ≠ none := by
  cases hcli : env.anthropic with
  | true => rw [getClaudeCompletion_of_last_user env messages text systemPrompt hcli h]; simp
  | false => simp [getClaudeCompletion, hcli]

/-- The requests of the AI section: the calls of the provider in it are those of
`getClaudeCompletion` on the trimmed history. -/
theorem aiSection_calls (env : Env) (remoteJid messageText : JsString)
    (stored : Option (List Message)) :
    ∀ e ∈ (aiSection env remoteJid messageText stored).2, e.isProviderCall = true →
      e ∈ (getClaudeCompletion env
        (appendAndTrim (stored.getD []) ⟨Role.user, messageText⟩) []).2 := by
  unfold aiSection appendAndTrim
  simp only [Heap.push, Heap.read, Heap.alloc, List.getD_cons_zero, List.set_cons_zero,
    List.length_singleton, List.singleton_append, List.getD_cons_succ, List.length_cons,
    List.length_nil, List.cons_append, List.nil_append, List.set_cons_succ, aiCatch]
  generalize getClaudeCompletion env
    (trimHistory (stored.getD [] ++ [(⟨Role.user, messageText⟩ : Message)])) [] = result
  obtain ⟨response, calls⟩ := result
  repeat' split
  all_goals
    intro e he hp
    simp only [List.mem_append, List.mem_cons, List.mem_singleton, List.not_mem_nil,
      or_false] at he
    cases e <;> simp_all [Effect.isProviderCall]

/-- A conditional between two results with given settings has these settings. -/
theorem settings_ite {c : Prop} [Decidable c] {a b : Dispatch} {s : ChatSettings}
    (ha : a.settings = s) (hb : b.settings = s) : (if c then a else b).settings = s := by
  split <;> assumption

/-- Outside a group the `switch` leaves the settings object as it is. -/
theorem runSwitch_private_settings (env : Env) (remoteJid : JsString) (isAdmin : Bool)
    (groupMetadata : Option GroupMetadata) (commandLower : JsString) (args : List JsString)
    (s : ChatSettings) :
    (runSwitch env remoteJid false isAdmin groupMetadata commandLower args s).settings = s := by
  unfold runSwitch
  simp only [Bool.not_false, if_true]
  repeat' (first | apply settings_ite | split)
  all_goals rfl

/-- The settings read from a store depend on its settings map only. -/
theorem settingsOf_congr (a b : Store) (h : a.chatSettings = b.chatSettings)
    (chat : JsString) : settingsOf a chat = settingsOf b chat := by
  unfold settingsOf
  rw [h]

/-- The settings read from a store whose settings map is known. -/
theorem settingsOf_of_map (a : Store) (settings : JsString → Option ChatSettings)
    (h : a.chatSettings = settings) (chat : JsString) :
    settingsOf a chat = settingsOf ⟨a.conversationHistory, settings⟩ chat := by
  unfold settingsOf
  rw [h]

/-- The settings map after the command branch: the one before, with at most the settings
object of the chat written back as the `switch` left it. -/
theorem commandBlock_settings (env : Env) (store : Store)
    (remoteJid senderJid messageText : JsString) (isGroup : Bool)
    (currentSettings : ChatSettings) :
    (commandBlock env store remoteJid senderJid messageText isGroup currentSettings
      ).store.chatSettings = store.chatSettings ∨
    ∃ isAdmin groupMetadata,
      (commandBlock env store remoteJid senderJid messageText isGroup currentSettings
        ).store.chatSettings =
      setKey store.chatSettings remoteJid
        (runSwitch env remoteJid isGroup isAdmin groupMetadata
          (env.toLowerCase ((commandTokens env messageText).headD []))
          (commandTokens env messageText).tail currentSettings).settings := by
  unfold commandBlock
  generalize (if isGroup = true then getGroupMetadata env remoteJid else (none, [])) = p
  obtain ⟨gm, fetched⟩ := p
  simp only []
  repeat' split
  all_goals first
    | exact Or.inl rfl
    | exact Or.inr ⟨_, _, rfl⟩

/-- What follows the moderation block leaves the settings map as it is. -/
theorem afterModeration_settings (env : Env) (store : Store)
    (remoteJid messageText : JsString) (isGroup : Bool) (currentSettings : ChatSettings)
    (messageDeleted : Bool) (trace : List Effect) :
    (afterModeration env store remoteJid messageText isGroup currentSettings messageDeleted
      trace).store.chatSettings = store.chatSettings := by
  rw [afterModeration_eq]
  repeat' split
  all_goals rfl

/-- Handling a message changes the settings of group chats only. -/
theorem handleMessage_settings (env : Env) (store : Store) (msg : Msg) (chat : JsString)
    (hchat : endsWith chat (js "@g.us") = false) :
    settingsOf (handleMessage env store msg).store chat = settingsOf store chat := by
  unfold handleMessage
  split
  · rfl
  · split
    · rfl
    · rename_i remoteJid hjid
      split
      · rfl
      · dsimp only
        split
        · rcases commandBlock_settings env (ensureSettings store remoteJid) remoteJid
            (msg.senderJid remoteJid) msg.messageText (endsWith remoteJid (js "@g.us"))
            (settingsOf store remoteJid) with h | ⟨isAdmin, gm, h⟩
          · rw [settingsOf_congr _ _ h]; exact settingsOf_ensure store remoteJid chat
          · rw [settingsOf_of_map _ _ h, settingsOf_setKey]
            split
            · rename_i hc
              subst hc
              rw [hchat, runSwitch_private_settings]
            · exact settingsOf_ensure store remoteJid chat
        · split
          · exact settingsOf_ensure store remoteJid chat
          · rw [settingsOf_congr _ _ (afterModeration_settings _ _ _ _ _ _ _ _)]
            exact settingsOf_ensure store remoteJid chat

/-- Over any sequence of events the settings of a chat that is no group stay as they are. -/
theorem handleEvents_settings (events : List Event) (store : Store) (chat : JsString)
    (hchat : endsWith chat (js "@g.us") = false) :
    settingsOf (handleEvents store events) chat = settingsOf store chat := by
  induction events generalizing store with
  | nil => rfl
  | cons event rest ih =>
    cases event with
    | message env msg =>
      simp only [handleEvents, handleEvent]
      rw [ih, handleMessage_settings env store msg chat hchat]
    | participants env update =>
      simp only [handleEvents, handleEvent, handleParticipantsUpdate_store]
      exact ih _

/-- The replies of the five toggle commands outside a group. -/
theorem runSwitch_private_reply (env : Env) (remoteJid : JsString) (isAdmin : Bool)
    (groupMetadata : Option GroupMetadata) (args : List JsString) (s : ChatSettings) :
    runSwitch env remoteJid false isAdmin groupMetadata (js "aion") args s
      = Dispatch.say s (js "AI is always enabled in private chat.") ∧
    runSwitch env remoteJid false isAdmin groupMetadata (js "aioff") args s
      = Dispatch.say s (js "AI cannot be disabled in private chat.") ∧
    runSwitch env remoteJid false isAdmin groupMetadata (js "antilink") args s
      = Dispatch.say s (js "This command is only for groups.") ∧
    runSwitch env remoteJid false isAdmin groupMetadata (js "welcome") args s
      = Dispatch.say s (js "This command is only for groups.") ∧
    runSwitch env remoteJid false isAdmin groupMetadata (js "antispam") args s
      = Dispatch.say s (js "This command is only for groups.") := by
  refine ⟨?_, ?_, ?_, ?_, ?_⟩
  · unfold runSwitch
    rw [if_pos rfl]; rfl
  · unfold runSwitch
    rw [if_neg (by decide), if_pos rfl]; rfl
  · unfold runSwitch
    rw [if_neg (by decide), if_neg (by decide), if_pos rfl]; rfl
  · unfold runSwitch
    rw [if_neg (by decide), if_neg (by decide), if_neg (by decide), if_pos rfl]; rfl
  · unfold runSwitch
    rw [if_neg (by decide), if_neg (by decide), if_neg (by decide), if_neg (by decide),
      if_pos rfl]; rfl

/-- Outside a group, a command whose case only sets `replyText` and leaves the settings: the
reply is the only request. -/
theorem handleMessage_private_say (env : Env) (store : Store) (msg : Msg)
    (remoteJid text : JsString)
    (hmsg : msg.hasMessage = true) (hme : msg.fromMe = false)
    (hjid : msg.remoteJid = some remoteJid) (hne : truthyStr remoteJid = true)
    (hgroup : endsWith remoteJid (js "@g.us") = false)
    (hpre : startsWith msg.messageText env.commandPrefix = true)
    (hsw : runSwitch env remoteJid false false none
        (env.toLowerCase ((commandTokens env msg.messageText).headD []))
        (commandTokens env msg.messageText).tail (settingsOf store remoteJid)
      = Dispatch.say (settingsOf store remoteJid) text)
    (ht : truthyStr text = true) :
    (handleMessage env store msg).trace = [Effect.sendText remoteJid text true] := by
  rw [handleMessage_command env store msg remoteJid hmsg hme hjid hne hpre]
  simp only [commandBlock, hgroup, Bool.false_eq_true, if_false, Bool.false_and, hsw,
    Dispatch.say, ht, if_true, List.nil_append]

/-- With the bot no administrator, lines 360-403 delete nothing and request nothing, whatever
the policies find. -/
theorem moderationChecks_bot_not_admin (env : Env) (remoteJid messageText : JsString)
    (currentSettings : ChatSettings) (senderIsAdmin : Bool) :
    moderationChecks env remoteJid messageText currentSettings senderIsAdmin false
      = (false, []) := by
  simp only [moderationChecks]
  repeat' split
  all_goals simp_all

/-- In a group the handler calls neither the provider nor asks for a deletion, and leaves the
histories alone: a command ends in the command branch, any other message at line 356. -/
theorem handleMessage_group_frame (env : Env) (store : Store) (msg : Msg) (remoteJid : JsString)
    (hjid : msg.remoteJid = some remoteJid)
    (hgroup : endsWith remoteJid (js "@g.us") = true) :
    quiet (handleMessage env store msg).trace ∧
    (handleMessage env store msg).store.conversationHistory = store.conversationHistory := by
  cases hm : msg.hasMessage
  · simp [handleMessage, hm, quiet]
  · cases hf : msg.fromMe
    · by_cases hpre : startsWith msg.messageText env.commandPrefix = true
      · rw [handleMessage_command env store msg remoteJid hm hf hjid (truthy_of_group _ hgroup)
          hpre]
        exact commandBlock_frame env (ensureSettings store remoteJid) remoteJid
          (msg.senderJid remoteJid) msg.messageText (endsWith remoteJid (js "@g.us"))
          (settingsOf store remoteJid)
      · rw [handleMessage_group_plain env store msg remoteJid hm hf hjid hgroup
          (by simpa using hpre)]
        exact ⟨by simp [quiet], rfl⟩
    · simp [handleMessage, hf, quiet]

/-- Outside a group a message without the command prefix skips the moderation block: the
handler is at line 407 with `messageDeleted` false and no request made. -/
theorem handleMessage_private_plain (env : Env) (store : Store) (msg : Msg)
    (remoteJid : JsString)
    (hmsg : msg.hasMessage = true) (hme : msg.fromMe = false)
    (hjid : msg.remoteJid = some remoteJid) (hne : truthyStr remoteJid = true)
    (hgroup : endsWith remoteJid (js "@g.us") = false)
    (hpre : startsWith msg.messageText env.commandPrefix = false) :
    handleMessage env store msg =
      afterModeration env (ensureSettings store remoteJid) remoteJid msg.messageText false
        (settingsOf store remoteJid) false [] := by
  unfold handleMessage
  simp only [hmsg, hme, hjid, hne, hpre, hgroup, Bool.not_true, Bool.or_self,
    Bool.false_eq_true, if_false]

/-! ### Claims -/

/-- C1 (the code differs).  In the private chat `alice`, from the empty store, the text `hi`
is handled and Claude replies `hello`: the reply is sent, but the stored history is only the
user entry.  Line 452 pushes the reply onto the array `history`, which since line 438 is no
longer the array that `conversationHistory[remoteJid]` refers to. -/
theorem C1_reply_not_stored :
    (handleMessage sampleEnv Store.empty (privateText (js "hi"))).trace =
      [Effect.presence true alice,
       Effect.messagesCreate none [⟨Role.user, js "hi"⟩],
       Effect.presence false alice,
       Effect.sendText alice (js "hello") false] ∧
    (handleMessage sampleEnv Store.empty (privateText (js "hi"))).store.conversationHistory alice
      = some [⟨Role.user, js "hi"⟩] ∧
    (handleMessage sampleEnv Store.empty (privateText (js "hi"))).store.conversationHistory alice
      ≠ some ([] ++ [⟨Role.user, js "hi"⟩] ++ [⟨Role.assistant, js "hello"⟩]) := by
  set_option maxRecDepth 100000 in decide

/-- C2 (the code differs).  A history of nine entries that starts with a system message has
eleven entries after one append-and-trim step, one more than `MAX_HISTORY_LENGTH`; the handler
stores a history of eleven entries for that chat. -/
theorem C2_window_exceeded :
    MAX_HISTORY_LENGTH = 10 ∧ nineWithSystem.length = 9 ∧
    (appendAndTrim nineWithSystem ⟨Role.user, js "hi"⟩).length = 11 ∧
    ((handleMessage sampleEnv (storeWith alice nineWithSystem defaultSettings)
        (privateText (js "hi"))).store.conversationHistory alice).map List.length = some 11 := by
  set_option maxRecDepth 100000 in decide

/-- C3 (the code differs).  From the empty store, two texts are handled in a private chat and
Claude answers both: the stored history is two user entries in a row. -/
theorem C3_two_user_entries :
    (handleAll Store.empty
        [(sampleEnv, privateText (js "one")), (sampleEnv, privateText (js "two"))]
      ).conversationHistory alice = some [⟨Role.user, js "one"⟩, ⟨Role.user, js "two"⟩] ∧
    alternates [⟨Role.user, js "one"⟩, ⟨Role.user, js "two"⟩] = false := by
  set_option maxRecDepth 100000 in decide

/-- C4 (the code differs).  The history made of one system message holds its only system
message at position 0; after a user message is appended and the history trimmed, it holds two
system messages. -/
theorem C4_system_duplicated :
    systemOnlyAtHead [⟨Role.system, js "Be brief."⟩] = true ∧
    appendAndTrim [⟨Role.system, js "Be brief."⟩] ⟨Role.user, js "hi"⟩ =
      [⟨Role.system, js "Be brief."⟩, ⟨Role.system, js "Be brief."⟩, ⟨Role.user, js "hi"⟩] ∧
    systemOnlyAtHead (appendAndTrim [⟨Role.system, js "Be brief."⟩] ⟨Role.user, js "hi"⟩)
      = false := by
  decide

/-- C5.  With the Anthropic client constructed, `getClaudeCompletion` either returns `null`
without a request, exactly when the non-system messages hold no user message or do not end
with one; or it makes one request, whose messages are not empty, hold no system message, are
the non-system messages from the first user message on, and end with a user message. -/
theorem C5_request_builder (env : Env) (messages : List Message) (systemPrompt : JsString)
    (h : env.anthropic = true) :
    (((∀ m ∈ nonSystem messages, m.role ≠ Role.user) ∨
        (nonSystem messages).getLast?.map Message.role ≠ some Role.user) ∧
      getClaudeCompletion env messages systemPrompt = (none, [])) ∨
    ((¬ ((∀ m ∈ nonSystem messages, m.role ≠ Role.user) ∨
        (nonSystem messages).getLast?.map Message.role ≠ some Role.user)) ∧
      ∃ reply system submitted before,
        getClaudeCompletion env messages systemPrompt =
          (some reply, [Effect.messagesCreate system submitted]) ∧
        submitted ≠ [] ∧
        (∀ m ∈ submitted, m.role ≠ Role.system) ∧
        nonSystem messages = before ++ submitted ∧
        (∀ m ∈ before, m.role ≠ Role.user) ∧
        submitted.head?.map Message.role = some Role.user ∧
        submitted.getLast?.map Message.role = some Role.user) := by
  have hsys : ∀ m ∈ nonSystem messages, m.role ≠ Role.system := by
    intro m hm
    simpa using (List.mem_filter.mp hm).2
  have hc := cleanedHistory_eq messages
  generalize nonSystem messages = history at *
  by_cases hdrop : history.dropWhile (fun m => !decide (m.role = Role.user)) = []
  · left
    have hall : ∀ m ∈ history, m.role ≠ Role.user := by
      intro m hm
      simpa using (List.dropWhile_eq_nil_iff.mp hdrop) m hm
    refine ⟨Or.inl hall, ?_⟩
    simp [getClaudeCompletion, h, hc, hdrop]
  · have hlast := getLast?_dropWhile _ history hdrop
    by_cases hl : history.getLast?.map Message.role = some Role.user
    · right
      refine ⟨?_, ?_⟩
      · rintro (hall | hne)
        · exact hdrop (List.dropWhile_eq_nil_iff.mpr (by simpa using hall))
        · exact hne hl
      · refine ⟨completionOf env.api, systemOf messages systemPrompt, cleanedHistory messages,
          history.takeWhile (fun m => !decide (m.role = Role.user)), ?_, ?_, ?_, ?_, ?_, ?_, ?_⟩
        · simp [getClaudeCompletion, h, hc, hlast, hl, hdrop]
        · rw [hc]; exact hdrop
        · intro m hm
          rw [hc] at hm
          exact hsys m ((List.dropWhile_sublist _).subset hm)
        · rw [hc]; exact (List.takeWhile_append_dropWhile _ _).symm
        · intro m hm
          simpa using List.mem_takeWhile_imp hm
        · rw [hc]
          have := List.head?_dropWhile_not (fun m => !decide (m.role = Role.user)) history
          cases hd : (history.dropWhile (fun m => !decide (m.role = Role.user))).head? with
          | none => simp [List.head?_eq_none_iff] at hd; exact absurd hd (by simpa using hdrop)
          | some x => rw [hd] at this; simpa using this
        · rw [hc, hlast]; exact hl
    · left
      refine ⟨Or.inr hl, ?_⟩
      simp [getClaudeCompletion, h, hc, hdrop, hlast, hl]

/-- C5 at a history that starts with an assistant entry and ends with a user entry: the
request holds the entries from the first user message on. -/
theorem C5_request_builder_witness :
    sampleEnv.anthropic = true ∧
    getClaudeCompletion sampleEnv
        [⟨Role.system, js "Be brief."⟩, ⟨Role.assistant, js "hello"⟩, ⟨Role.user, js "hi"⟩] []
      = (some ⟨Role.assistant, js "hello"⟩,
          [Effect.messagesCreate (some (js "Be brief.")) [⟨Role.user, js "hi"⟩]]) := by
  refine ⟨rfl, ?_⟩
  rcases C5_request_builder sampleEnv
      [⟨Role.system, js "Be brief."⟩, ⟨Role.assistant, js "hello"⟩, ⟨Role.user, js "hi"⟩] []
      rfl with ⟨_, h⟩ | ⟨_, _, _, _, _, _, _⟩
  · exact absurd h (by decide)
  · decide

/-- C6.  In a group, a sender who is not an administrator and sends one of the commands of
`adminCommands` gets exactly one message, the rejection notice; the settings of every chat and
the histories are as before. -/
theorem C6_admin_command_rejected (env : Env) (store : Store) (msg : Msg)
    (remoteJid : JsString)
    (hmsg : msg.hasMessage = true) (hme : msg.fromMe = false)
    (hjid : msg.remoteJid = some remoteJid)
    (hgroup : endsWith remoteJid (js "@g.us") = true)
    (hpre : startsWith msg.messageText env.commandPrefix = true)
    (hadmin : isGroupAdmin env.metadata (msg.senderJid remoteJid) = false)
    (hcmd : env.toLowerCase ((commandTokens env msg.messageText).headD []) ∈ adminCommands) :
    (handleMessage env store msg).trace.filter Effect.isSend =
      [Effect.sendText remoteJid (js "Sorry, only group admins can use this command.") true] ∧
    (∀ chat, settingsOf (handleMessage env store msg).store chat = settingsOf store chat) ∧
    (handleMessage env store msg).store.conversationHistory = store.conversationHistory := by
  rw [handleMessage_command env store msg remoteJid hmsg hme hjid (truthy_of_group _ hgroup)
    hpre]
  have hc : adminCommands.contains
      (env.toLowerCase ((commandTokens env msg.messageText).headD [])) = true := by
    simpa using hcmd
  simp only [commandBlock, hgroup, getGroupMetadata, isGroupAdmin_some, hadmin, hc, if_true,
    Bool.not_false, Bool.and_self]
  refine ⟨by simp [Effect.isSend], fun chat => settingsOf_ensure store remoteJid chat, rfl⟩

/-- C6 at `!antilink on`, sent by `bob` in the group `family` whose anti-link flag is off:
the rejection is the only message and the flag is still off. -/
theorem C6_admin_command_rejected_witness :
    isGroupAdmin sampleEnv.metadata ((groupText (js "!antilink on")).senderJid family) = false ∧
    sampleEnv.toLowerCase ((commandTokens sampleEnv (js "!antilink on")).headD [])
      ∈ adminCommands ∧
    (handleMessage sampleEnv (storeWith family [] defaultSettings)
        (groupText (js "!antilink on"))).trace.filter Effect.isSend =
      [Effect.sendText family (js "Sorry, only group admins can use this command.") true] ∧
    (settingsOf (handleMessage sampleEnv (storeWith family [] defaultSettings)
        (groupText (js "!antilink on"))).store family).antiLinkEnabled = false :=
  ⟨by decide, by decide,
    (C6_admin_command_rejected sampleEnv (storeWith family [] defaultSettings)
      (groupText (js "!antilink on")) family rfl rfl rfl (by decide) (by decide) (by decide)
      (by decide)).1,
    by
      rw [(C6_admin_command_rejected sampleEnv (storeWith family [] defaultSettings)
        (groupText (js "!antilink on")) family rfl rfl rfl (by decide) (by decide) (by decide)
        (by decide)).2.1 family]
      decide⟩

/-- C7.  A message whose text starts with the command prefix never leads to a call of the AI
provider nor to a request to delete a message, and leaves the history of every chat as it
was, whatever the collaborators answer. -/
theorem C7_command_is_terminal (env : Env) (store : Store) (msg : Msg)
    (hpre : startsWith msg.messageText env.commandPrefix = true) :
    (∀ e ∈ (handleMessage env store msg).trace,
      e.isProviderCall = false ∧ e.isDelete = false) ∧
    (handleMessage env store msg).store.conversationHistory = store.conversationHistory := by
  unfold handleMessage
  split
  · simp
  · split
    · simp
    · split
      · simp
      · simp only [hpre, if_true]
        exact commandBlock_frame _ _ _ _ _ _ _

/-- C7 at `!leave`, sent by the administrator `carol` in the group, when the farewell is
sent and leaving fails: two texts and the request to leave, no call of the provider. -/
theorem C7_command_is_terminal_witness :
    startsWith (adminText (js "!leave")).messageText sampleEnv.commandPrefix = true ∧
    (handleMessage { sampleEnv with ok := fun site => decide (site ≠ Site.leave) } Store.empty
        (adminText (js "!leave"))).store.conversationHistory = Store.empty.conversationHistory :=
  ⟨by decide,
    (C7_command_is_terminal { sampleEnv with ok := fun site => decide (site ≠ Site.leave) }
      Store.empty (adminText (js "!leave")) (by decide)).2⟩

/-- C8 as stated fails.  In the group `family`, `bob`, who is not an administrator, sends
`!foo`, which is no command: the metadata is fetched and nothing is sent. -/
theorem C8_unknown_command_unanswered :
    sampleEnv.toLowerCase ((commandTokens sampleEnv (js "!foo")).headD []) ∉ knownCommands ∧
    isGroupAdmin sampleEnv.metadata bob = false ∧
    (handleMessage sampleEnv Store.empty (groupText (js "!foo"))).trace
      = [Effect.groupMetadata family] ∧
    (handleMessage sampleEnv Store.empty (groupText (js "!foo"))).trace.filter Effect.isSend
      ≠ [Effect.sendText family (js "Unknown command.") true] := by
  set_option maxRecDepth 100000 in decide

/-- C8, amended.  For a token that is no case label of the `switch`: in a private chat, and in
a group when the sender is an administrator, exactly one message is sent, the text
`Unknown command.`; in a group when the sender is not an administrator, nothing is sent.  The
settings of every chat are as before. -/
theorem C8_unknown_command (env : Env) (store : Store) (msg : Msg) (remoteJid : JsString)
    (hmsg : msg.hasMessage = true) (hme : msg.fromMe = false)
    (hjid : msg.remoteJid = some remoteJid) (hne : truthyStr remoteJid = true)
    (hpre : startsWith msg.messageText env.commandPrefix = true)
    (hcmd : env.toLowerCase ((commandTokens env msg.messageText).headD []) ∉ knownCommands) :
    ((endsWith remoteJid (js "@g.us") = false ∨
        isGroupAdmin env.metadata (msg.senderJid remoteJid) = true) →
      (handleMessage env store msg).trace.filter Effect.isSend =
        [Effect.sendText remoteJid (js "Unknown command.") true]) ∧
    ((endsWith remoteJid (js "@g.us") = true ∧
        isGroupAdmin env.metadata (msg.senderJid remoteJid) = false) →
      (handleMessage env store msg).trace.filter Effect.isSend = []) ∧
    (∀ chat, settingsOf (handleMessage env store msg).store chat = settingsOf store chat) := by
  rw [handleMessage_command env store msg remoteJid hmsg hme hjid hne hpre]
  have hnot := adminCommands_of_unknown _ hcmd
  have hsay : truthyStr (js "Unknown command.") = true := by decide
  simp only [commandBlock, getGroupMetadata, isGroupAdmin_some, hnot,
    runSwitch_unknown _ _ _ _ _ _ _ _ hcmd, Dispatch.say, hsay, if_true]
  cases hg : endsWith remoteJid (js "@g.us") <;>
    cases ha : isGroupAdmin env.metadata (msg.senderJid remoteJid) <;>
    simp [hg, ha, Effect.isSend, settingsOf_ensure, settingsOf_write_back]

/-- C8, amended, at `!foo` sent in the private chat `alice`. -/
theorem C8_unknown_command_witness :
    sampleEnv.toLowerCase ((commandTokens sampleEnv (privateText (js "!foo")).messageText).headD
      []) ∉ knownCommands ∧
    endsWith alice (js "@g.us") = false ∧
    (handleMessage sampleEnv Store.empty (privateText (js "!foo"))).trace.filter Effect.isSend =
      [Effect.sendText alice (js "Unknown command.") true] :=
  ⟨by decide, by decide,
    (C8_unknown_command sampleEnv Store.empty (privateText (js "!foo")) alice rfl rfl rfl
      (by decide) (by decide) (by decide)).1 (Or.inl (by decide))⟩

/-- C9 as stated fails.  In the group `family` the command `!help` of `bob`, who is not an
administrator, gets no reply, while the same command of the administrator `carol` gets the
menu. -/
theorem C9_help_unanswered :
    isGroupAdmin sampleEnv.metadata bob = false ∧
    isGroupAdmin sampleEnv.metadata carol = true ∧
    (handleMessage sampleEnv Store.empty (groupText (js "!help"))).trace
      = [Effect.groupMetadata family] ∧
    (handleMessage sampleEnv Store.empty (adminText (js "!help"))).trace
      = [Effect.groupMetadata family,
         Effect.sendText family (menuText sampleEnv true defaultSettings) true] := by
  set_option maxRecDepth 100000 in decide

/-- C9, amended.  In a group, a sender who is not an administrator runs no command: for
`help`, `menu`, `myinfo` and `groupinfo` the handler fetches the metadata and returns; it
sends nothing, and the settings and histories are as before. -/
theorem C9_non_admin_commands_ignored (env : Env) (store : Store) (msg : Msg)
    (remoteJid : JsString)
    (hmsg : msg.hasMessage = true) (hme : msg.fromMe = false)
    (hjid : msg.remoteJid = some remoteJid)
    (hgroup : endsWith remoteJid (js "@g.us") = true)
    (hpre : startsWith msg.messageText env.commandPrefix = true)
    (hadmin : isGroupAdmin env.metadata (msg.senderJid remoteJid) = false)
    (hcmd : env.toLowerCase ((commandTokens env msg.messageText).headD []) ∈
      [js "help", js "menu", js "myinfo", js "groupinfo"]) :
    (handleMessage env store msg).trace = [Effect.groupMetadata remoteJid] ∧
    (handleMessage env store msg).completion = Completion.returned ∧
    (∀ chat, settingsOf (handleMessage env store msg).store chat = settingsOf store chat) ∧
    (handleMessage env store msg).store.conversationHistory = store.conversationHistory := by
  rw [handleMessage_command env store msg remoteJid hmsg hme hjid (truthy_of_group _ hgroup)
    hpre]
  have hnot : adminCommands.contains
      (env.toLowerCase ((commandTokens env msg.messageText).headD [])) = false := by
    simp only [List.mem_cons, List.mem_singleton, List.not_mem_nil, or_false] at hcmd
    rcases hcmd with h | h | h | h <;> rw [h] <;> decide
  simp only [commandBlock, hgroup, getGroupMetadata, isGroupAdmin_some, hadmin, hnot, if_true,
    Bool.not_false, Bool.and_self]
  exact ⟨by simp, rfl, fun chat => settingsOf_ensure store remoteJid chat, rfl⟩

/-- C9, amended, at `!myinfo` sent by `bob` in the group `family`. -/
theorem C9_non_admin_commands_ignored_witness :
    isGroupAdmin sampleEnv.metadata ((groupText (js "!myinfo")).senderJid family) = false ∧
    (handleMessage sampleEnv Store.empty (groupText (js "!myinfo"))).trace
      = [Effect.groupMetadata family] :=
  ⟨by decide,
    (C9_non_admin_commands_ignored sampleEnv Store.empty (groupText (js "!myinfo")) family rfl
      rfl rfl (by decide) (by decide) (by decide) (by decide)).1⟩

/-- C10 (the code differs).  In the group `family`, with anti-link enabled, the bot an
administrator and `bob` not, `bob` sends `visit http://x.com`, which matches `urlRegex`.  The
handler ends with a `ReferenceError` on `groupMetadata` at line 356 before any request is
made, so no deletion is requested; the block of lines 356-403 itself, started with `null` for
that identifier, would request the deletion. -/
theorem C10_link_not_deleted :
    Re.test urlRegex (js "visit http://x.com") = true ∧
    startsWith (js "visit http://x.com") sampleEnv.commandPrefix = false ∧
    isGroupAdmin sampleEnv.metadata bot = true ∧
    isGroupAdmin sampleEnv.metadata bob = false ∧
    (handleMessage sampleEnv (storeWith family [] ⟨false, true, false, false⟩)
        (groupText (js "visit http://x.com"))).completion
      = Completion.threw (Err.referenceError "groupMetadata") ∧
    (handleMessage sampleEnv (storeWith family [] ⟨false, true, false, false⟩)
        (groupText (js "visit http://x.com"))).trace = [] ∧
    (moderation sampleEnv none family bob (js "visit http://x.com")
        ⟨false, true, false, false⟩).trace
      = [Effect.groupMetadata family, Effect.sendDelete family] := by
  set_option maxRecDepth 100000 in decide

/-- C11.  With the sender an administrator, whatever the settings, the text and the status of
the bot, the checks of lines 360-403 delete nothing and request nothing, and the handler goes
on to the AI-eligibility check of line 413 with nothing deleted. -/
theorem C11_admin_sender_is_clear (env : Env) (store : Store) (remoteJid messageText : JsString)
    (currentSettings : ChatSettings) (botIsAdmin : Bool) :
    moderationChecks env remoteJid messageText currentSettings true botIsAdmin = (false, []) ∧
    moderatedGroupMessage env store remoteJid messageText currentSettings true botIsAdmin =
      afterModeration env store remoteJid messageText true currentSettings false [] := by
  have h : moderationChecks env remoteJid messageText currentSettings true botIsAdmin
      = (false, []) := by
    simp [moderationChecks]
  exact ⟨h, by simp [moderatedGroupMessage, h]⟩

/-- C12.  A message reaches the AI path only when moderation let it through with nothing
found.  In a group no message reaches it, whatever the settings (`aiEnabled` true included),
the text and the administrator status of sender and bot, so a message that triggers a policy
the bot cannot enforce does not: the provider is not called and the histories are as before.
A message for which the provider is called or a history changes is in a chat that is no
group and is no command; the moderation block is skipped for it, and the handler is at line
407 with `messageDeleted` false and no request made. -/
theorem C12_only_clear_reaches_ai (env : Env) (store : Store) (msg : Msg)
    (remoteJid : JsString) (hjid : msg.remoteJid = some remoteJid) :
    (endsWith remoteJid (js "@g.us") = true →
      (∀ e ∈ (handleMessage env store msg).trace, e.isProviderCall = false) ∧
      (handleMessage env store msg).store.conversationHistory = store.conversationHistory) ∧
    (((∃ e ∈ (handleMessage env store msg).trace, e.isProviderCall = true) ∨
        (handleMessage env store msg).store.conversationHistory ≠ store.conversationHistory) →
      endsWith remoteJid (js "@g.us") = false ∧
      startsWith msg.messageText env.commandPrefix = false ∧
      handleMessage env store msg =
        afterModeration env (ensureSettings store remoteJid) remoteJid msg.messageText false
          (settingsOf store remoteJid) false []) := by
  have key : ∀ out : Outcome, quiet out.trace →
      out.store.conversationHistory = store.conversationHistory →
      ¬ ((∃ e ∈ out.trace, e.isProviderCall = true) ∨
        out.store.conversationHistory ≠ store.conversationHistory) := by
    intro out hq hh h
    rcases h with ⟨e, he, hp⟩ | h
    · rw [(hq e he).1] at hp
      cases hp
    · exact h hh
  constructor
  · intro hgroup
    have h := handleMessage_group_frame env store msg remoteJid hjid hgroup
    exact ⟨fun e he => (h.1 e he).1, h.2⟩
  · intro h
    cases hg : endsWith remoteJid (js "@g.us")
    · cases hm : msg.hasMessage
      · exact absurd h (key _ (by simp [handleMessage, hm, quiet])
          (by simp [handleMessage, hm]))
      · cases hf : msg.fromMe
        · cases hne : truthyStr remoteJid
          · exact absurd h (key _ (by simp [handleMessage, hm, hf, hjid, hne, quiet])
              (by simp [handleMessage, hm, hf, hjid, hne]))
          · cases hpre : startsWith msg.messageText env.commandPrefix
            · exact ⟨rfl, rfl,
                handleMessage_private_plain env store msg remoteJid hm hf hjid hne hg hpre⟩
            · have hc := commandBlock_frame env (ensureSettings store remoteJid) remoteJid
                (msg.senderJid remoteJid) msg.messageText (endsWith remoteJid (js "@g.us"))
                (settingsOf store remoteJid)
              rw [← handleMessage_command env store msg remoteJid hm hf hjid hne hpre] at hc
              exact absurd h (key _ hc.1 hc.2)
        · exact absurd h (key _ (by simp [handleMessage, hf, quiet])
            (by simp [handleMessage, hf]))
    · have hq := handleMessage_group_frame env store msg remoteJid hjid hg
      exact absurd h (key _ hq.1 hq.2)

/-- C12 at a link sent by `bob` in the group `family`, with anti-link and AI enabled and a
bot that is no administrator. -/
theorem C12_only_clear_reaches_ai_witness :
    Re.test urlRegex (js "visit http://x.com") = true ∧
    isGroupAdmin (some familyWithoutBot) bob = false ∧
    isGroupAdmin (some familyWithoutBot) bot = false ∧
    settingsOf (storeWith family [] ⟨true, true, false, false⟩) family
      = ⟨true, true, false, false⟩ ∧
    (∀ e ∈ (handleMessage { sampleEnv with metadata := some familyWithoutBot }
        (storeWith family [] ⟨true, true, false, false⟩)
        (groupText (js "visit http://x.com"))).trace, e.isProviderCall = false) ∧
    (handleMessage { sampleEnv with metadata := some familyWithoutBot }
        (storeWith family [] ⟨true, true, false, false⟩)
        (groupText (js "visit http://x.com"))).store.conversationHistory
      = (storeWith family [] ⟨true, true, false, false⟩).conversationHistory :=
  ⟨by set_option maxRecDepth 100000 in decide, by decide, by decide,
    by set_option maxRecDepth 100000 in decide,
    ((C12_only_clear_reaches_ai { sampleEnv with metadata := some familyWithoutBot }
      (storeWith family [] ⟨true, true, false, false⟩) (groupText (js "visit http://x.com"))
      family rfl).1 (by decide)).1,
    ((C12_only_clear_reaches_ai { sampleEnv with metadata := some familyWithoutBot }
      (storeWith family [] ⟨true, true, false, false⟩) (groupText (js "visit http://x.com"))
      family rfl).1 (by decide)).2⟩

/-- C13 (the code differs).  In the group `family` with `aiEnabled` true and no policy
enabled, `bob` sends `hello`, which is no command: the handler ends with a `ReferenceError`
on `groupMetadata` at line 356, so the message does not reach the AI section, although line
413 would let it through. -/
theorem C13_group_message_not_answered :
    startsWith (js "hello") sampleEnv.commandPrefix = false ∧
    (handleMessage sampleEnv (storeWith family [] ⟨true, false, false, false⟩)
        (groupText (js "hello"))).completion
      = Completion.threw (Err.referenceError "groupMetadata") ∧
    (handleMessage sampleEnv (storeWith family [] ⟨true, false, false, false⟩)
        (groupText (js "hello"))).trace = [] ∧
    (afterModeration sampleEnv (storeWith family [] ⟨true, false, false, false⟩) family
        (js "hello") true ⟨true, false, false, false⟩ false []).trace =
      [Effect.presence true family,
       Effect.messagesCreate none [⟨Role.user, js "hello"⟩],
       Effect.presence false family,
       Effect.sendText family (js "hello") false] := by
  set_option maxRecDepth 100000 in decide

/-- C14.  For a message that passes the AI-eligibility check of line 413, with the client
constructed, the calls of the channel resolving, a stored history without system message, and
a failure of the provider: the provider is called once; the text sent is the fallback of the
category of the failure; the four fallbacks differ; and the stored history is the one that
was stored right after the user message was appended and trimmed. -/
theorem C14_provider_failure (env : Env) (store : Store) (remoteJid messageText : JsString)
    (isGroup : Bool) (currentSettings : ChatSettings) (trace : List Effect)
    (helig : (!isGroup || currentSettings.aiEnabled) = true)
    (hcli : env.anthropic = true) (hok : ∀ site, env.ok site = true)
    (hfail : env.api.isFailure = true)
    (hsys : ∀ m ∈ (store.conversationHistory remoteJid).getD [], m.role ≠ Role.system) :
    (∃ text system submitted,
      (afterModeration env store remoteJid messageText isGroup currentSettings false trace).trace
        = trace ++ [Effect.presence true remoteJid, Effect.messagesCreate system submitted,
            Effect.presence false remoteJid, Effect.sendText remoteJid text false] ∧
      ((env.api = ApiOutcome.apiError (some 401) ∨ env.api = ApiOutcome.apiError (some 403)) →
        text = js "AI API authentication failed. Please check the API key.") ∧
      (env.api = ApiOutcome.apiError (some 429) →
        text = js "AI rate limit reached. Please try again later.") ∧
      (((∃ content, env.api = ApiOutcome.response content) ∨ env.api = ApiOutcome.noResponse) →
        text = js "Sorry, I received an unexpected response from the AI.") ∧
      ((env.api = ApiOutcome.otherError ∨
          ∃ status, env.api = ApiOutcome.apiError status ∧ status ≠ some 401 ∧
            status ≠ some 403 ∧ status ≠ some 429) →
        text = js "Sorry, I encountered an error trying to reach the AI.")) ∧
    (afterModeration env store remoteJid messageText isGroup currentSettings false trace
      ).store.conversationHistory remoteJid =
      some (appendAndTrim ((store.conversationHistory remoteJid).getD [])
        ⟨Role.user, messageText⟩) ∧
    (∀ m ∈ appendAndTrim ((store.conversationHistory remoteJid).getD [])
        ⟨Role.user, messageText⟩, m.role = Role.assistant →
      m ∈ (store.conversationHistory remoteJid).getD []) ∧
    [js "AI API authentication failed. Please check the API key.",
     js "AI rate limit reached. Please try again later.",
     js "Sorry, I received an unexpected response from the AI.",
     js "Sorry, I encountered an error trying to reach the AI."].Nodup := by
  have hcontent := completionOf_failure_truthy env.api hfail
  have hu : ∀ m ∈ (store.conversationHistory remoteJid).getD [] ++
      [(⟨Role.user, messageText⟩ : Message)], m.role ≠ Role.system := by
    intro m hm
    rcases List.mem_append.mp hm with hm | hm
    · exact hsys m hm
    · simp only [List.mem_singleton] at hm; subst hm; simp
  have hidem : trimHistory (appendAndTrim ((store.conversationHistory remoteJid).getD [])
      ⟨Role.user, messageText⟩) = appendAndTrim ((store.conversationHistory remoteJid).getD [])
      ⟨Role.user, messageText⟩ := trimHistory_idem _ hu
  have hai := aiSection_answered env remoteJid messageText (store.conversationHistory remoteJid)
    hcli hok hcontent
  rw [hidem] at hai
  refine ⟨⟨(completionOf env.api).content,
    systemOf (appendAndTrim ((store.conversationHistory remoteJid).getD [])
      ⟨Role.user, messageText⟩) [],
    cleanedHistory (appendAndTrim ((store.conversationHistory remoteJid).getD [])
      ⟨Role.user, messageText⟩), ?_, ?_, ?_, ?_, ?_⟩, ?_, ?_, by decide⟩
  · simp only [afterModeration_eq, helig, hai, Bool.false_eq_true, if_false, if_true]
  · rintro (h | h) <;> rw [h] <;> rfl
  · intro h; rw [h]; rfl
  · rintro (⟨content, h⟩ | h)
    · rw [h] at hfail ⊢
      unfold completionOf
      split
      · rename_i block rest heq
        cases heq
        have hb : block.type ≠ js "text" := by simpa [ApiOutcome.isFailure] using hfail
        simp [hb, invalidResponse]
      · rfl
      · rfl
      · rfl
      · rename_i heq; cases heq
      · rename_i heq; cases heq
    · rw [h]; rfl
  · rintro (h | ⟨status, h, h1, h2, h3⟩)
    · rw [h]; rfl
    · rw [h]; simp [completionOf, h1, h2, h3]
  · simp only [afterModeration_eq, helig, hai, Bool.false_eq_true, if_false, if_true, setKey]
  · intro m hm hrole
    have hhead : ((store.conversationHistory remoteJid).getD [] ++
        [(⟨Role.user, messageText⟩ : Message)]).head?.map Message.role ≠ some Role.system := by
      cases hl : (store.conversationHistory remoteJid).getD [] ++
          [(⟨Role.user, messageText⟩ : Message)] with
      | nil => simp
      | cons a t => simpa using hu a (by rw [hl]; simp)
    unfold appendAndTrim at hm
    rw [trimHistory_eq_drop _ hhead] at hm
    rcases List.mem_append.mp (List.mem_of_mem_drop hm) with h | h
    · exact h
    · simp only [List.mem_singleton] at h; subst h; simp at hrole

/-- C14 in the private chat `alice`, from the empty store, when the provider answers with
status 429: the rate-limit text is sent and the stored history is the user entry. -/
theorem C14_provider_failure_witness :
    (ApiOutcome.apiError (some 429)).isFailure = true ∧
    (afterModeration { sampleEnv with api := ApiOutcome.apiError (some 429) } Store.empty alice
        (js "hi") false defaultSettings false []).store.conversationHistory alice =
      some (appendAndTrim [] ⟨Role.user, js "hi"⟩) :=
  ⟨rfl,
    (C14_provider_failure { sampleEnv with api := ApiOutcome.apiError (some 429) } Store.empty
      alice (js "hi") false defaultSettings [] rfl rfl (fun _ => rfl) rfl
      (by simp [Store.empty])).2.1⟩

/-- C15.  In a group, for an administrator, a toggle command (`aion`, `aioff`, or `antilink`,
`welcome`, `antispam` with `on` or `off`) leaves its flag at the requested value and the
other three flags, and the settings of the other chats, as they were.  The same command a
second time leaves the settings as the first left them, and its reply is the notice of the
state, which differs from the confirmation of a change. -/
theorem C15_toggle_sets_flag (env : Env) (store : Store) (msg : Msg) (remoteJid : JsString)
    (flag : Flag) (value : Bool)
    (hmsg : msg.hasMessage = true) (hme : msg.fromMe = false)
    (hjid : msg.remoteJid = some remoteJid)
    (hgroup : endsWith remoteJid (js "@g.us") = true)
    (hpre : startsWith msg.messageText env.commandPrefix = true)
    (hadmin : isGroupAdmin env.metadata (msg.senderJid remoteJid) = true)
    (hcmd : toggleOf (env.toLowerCase ((commandTokens env msg.messageText).headD []))
      ((commandTokens env msg.messageText).tail.head?.map env.toLowerCase)
      = some (flag, value)) :
    settingsOf (handleMessage env store msg).store remoteJid
      = flag.set value (settingsOf store remoteJid) ∧
    flag.get (settingsOf (handleMessage env store msg).store remoteJid) = value ∧
    (∀ other, other ≠ flag →
      other.get (settingsOf (handleMessage env store msg).store remoteJid)
        = other.get (settingsOf store remoteJid)) ∧
    (∀ chat, chat ≠ remoteJid →
      settingsOf (handleMessage env store msg).store chat = settingsOf store chat) ∧
    (handleMessage env store msg).trace =
      [Effect.groupMetadata remoteJid,
       Effect.sendText remoteJid
         (if flag.get (settingsOf store remoteJid) = value then stateNotice env flag value
          else confirmation flag value) true] ∧
    settingsOf (handleMessage env (handleMessage env store msg).store msg).store remoteJid
      = settingsOf (handleMessage env store msg).store remoteJid ∧
    (handleMessage env (handleMessage env store msg).store msg).trace =
      [Effect.groupMetadata remoteJid,
       Effect.sendText remoteJid (stateNotice env flag value) true] ∧
    stateNotice env flag value ≠ confirmation flag value := by
  have htruthy : ∀ s : ChatSettings, truthyStr
      (if flag.get s = value then stateNotice env flag value else confirmation flag value)
      = true := by
    intro s
    split
    · exact (toggle_reply_truthy env flag value).1
    · exact (toggle_reply_truthy env flag value).2
  have hstep : ∀ st : Store, handleMessage env st msg =
      ⟨⟨st.conversationHistory,
          setKey (ensureSettings st remoteJid).chatSettings remoteJid
            (flag.set value (settingsOf st remoteJid))⟩,
        [Effect.groupMetadata remoteJid,
         Effect.sendText remoteJid
           (if flag.get (settingsOf st remoteJid) = value then stateNotice env flag value
            else confirmation flag value) true],
        if env.ok Site.reply = true then Completion.returned
        else Completion.threw (Err.rejected Site.reply)⟩ := fun st =>
    handleMessage_group_admin_say env st msg remoteJid _ _ hmsg hme hjid hgroup hpre hadmin
      (runSwitch_toggle env remoteJid true env.metadata _ _ _ flag value hcmd) (htruthy _)
  have hget : ∀ s : ChatSettings, flag.get (flag.set value s) = value := by
    intro s; cases flag <;> rfl
  have hother : ∀ (s : ChatSettings) (other : Flag), other ≠ flag →
      other.get (flag.set value s) = other.get s := by
    intro s other hne
    cases flag <;> cases other <;> first | rfl | exact absurd rfl hne
  have hidem : ∀ s : ChatSettings, flag.set value (flag.set value s) = flag.set value s := by
    intro s; cases flag <;> rfl
  have hfirst : settingsOf (handleMessage env store msg).store remoteJid
      = flag.set value (settingsOf store remoteJid) := by
    rw [hstep store, settingsOf_setKey, if_pos rfl]
  refine ⟨hfirst, ?_, ?_, ?_, ?_, ?_, ?_, stateNotice_ne_confirmation env flag value⟩
  · rw [hfirst]; exact hget _
  · intro other hne
    rw [hfirst]; exact hother _ other hne
  · intro chat hne
    rw [hstep store, settingsOf_setKey, if_neg hne]
    exact settingsOf_ensure store remoteJid chat
  · rw [hstep store]
  · rw [hstep (handleMessage env store msg).store, settingsOf_setKey, if_pos rfl, hfirst]
    exact hidem _
  · rw [hstep (handleMessage env store msg).store, hfirst, hget, if_pos rfl]

/-- C15 at `!AntiLink ON`, sent by the administrator `carol` in the group `family` whose flags
are all off: the anti-link flag is on afterwards. -/
theorem C15_toggle_sets_flag_witness :
    isGroupAdmin sampleEnv.metadata ((adminText (js "!AntiLink ON")).senderJid family) = true ∧
    toggleOf
      (sampleEnv.toLowerCase
        ((commandTokens sampleEnv (adminText (js "!AntiLink ON")).messageText).headD []))
      ((commandTokens sampleEnv (adminText (js "!AntiLink ON")).messageText).tail.head?.map
        sampleEnv.toLowerCase)
      = some (Flag.antiLinkEnabled, true) ∧
    settingsOf (handleMessage sampleEnv Store.empty (adminText (js "!AntiLink ON"))).store family
      = Flag.antiLinkEnabled.set true (settingsOf Store.empty family) :=
  ⟨by decide, by decide,
    (C15_toggle_sets_flag sampleEnv Store.empty (adminText (js "!AntiLink ON")) family
      Flag.antiLinkEnabled true rfl rfl rfl (by decide) (by decide) (by decide)
      (by decide)).1⟩

/-- C16.  In a group, for an administrator, `antilink`, `welcome` or `antispam` without a
first argument, or with one that is neither `on` nor `off`, is answered with one message: the
state of the flag, `ON` or `OFF`, followed by the usage hint.  The handler returns, and the
settings of every chat are as before. -/
theorem C16_invalid_argument (env : Env) (store : Store) (msg : Msg) (remoteJid : JsString)
    (flag : Flag)
    (hmsg : msg.hasMessage = true) (hme : msg.fromMe = false)
    (hjid : msg.remoteJid = some remoteJid)
    (hgroup : endsWith remoteJid (js "@g.us") = true)
    (hpre : startsWith msg.messageText env.commandPrefix = true)
    (hadmin : isGroupAdmin env.metadata (msg.senderJid remoteJid) = true)
    (hsend : env.ok Site.reply = true)
    (hcmd : flagOfCommand (env.toLowerCase ((commandTokens env msg.messageText).headD []))
      = some flag)
    (harg : (commandTokens env msg.messageText).tail.head?.map env.toLowerCase ≠ some (js "on") ∧
      (commandTokens env msg.messageText).tail.head?.map env.toLowerCase ≠ some (js "off")) :
    (handleMessage env store msg).trace =
      [Effect.groupMetadata remoteJid,
       Effect.sendText remoteJid (stateNotice env flag (flag.get (settingsOf store remoteJid)))
         true] ∧
    (handleMessage env store msg).completion = Completion.returned ∧
    (∀ chat, settingsOf (handleMessage env store msg).store chat = settingsOf store chat) ∧
    (∃ label,
      stateNotice env flag (flag.get (settingsOf store remoteJid)) =
        label ++ onOff (flag.get (settingsOf store remoteJid)) ++ js ". Use '" ++
          env.commandPrefix ++ env.toLowerCase ((commandTokens env msg.messageText).headD []) ++
          js " on/off'.") ∧
    onOff true = js "ON" ∧ onOff false = js "OFF" := by
  have hreq : requested ((commandTokens env msg.messageText).tail.head?.map env.toLowerCase)
      = none := by
    unfold requested
    rw [if_neg harg.1, if_neg harg.2]
  have hstep := handleMessage_group_admin_say env store msg remoteJid _ _ hmsg hme hjid hgroup
    hpre hadmin (runSwitch_state env remoteJid true env.metadata _ _ _ flag hcmd hreq)
    (toggle_reply_truthy env flag _).1
  refine ⟨by rw [hstep], by rw [hstep]; simp [hsend], ?_, ?_, rfl, rfl⟩
  · intro chat
    rw [hstep, settingsOf_setKey]
    split
    · rename_i h; rw [h]
    · exact settingsOf_ensure store remoteJid chat
  · have h1 : js "antilink on/off'." = js "antilink" ++ js " on/off'." := by decide
    have h2 : js "welcome on/off'." = js "welcome" ++ js " on/off'." := by decide
    have h3 : js "antispam on/off'." = js "antispam" ++ js " on/off'." := by decide
    unfold flagOfCommand at hcmd
    split_ifs at hcmd with c1 c2 c3
    · cases hcmd
      exact ⟨js "Anti-link is currently ", by
        rw [c1]; simp only [stateNotice, h1, List.append_assoc]⟩
    · cases hcmd
      exact ⟨js "Welcome messages are currently ", by
        rw [c2]; simp only [stateNotice, h2, List.append_assoc]⟩
    · cases hcmd
      exact ⟨js "Anti-spam is currently ", by
        rw [c3]; simp only [stateNotice, h3, List.append_assoc]⟩

/-- C16 at `!welcome maybe`, sent by `carol` in the group `family` whose flags are all
off. -/
theorem C16_invalid_argument_witness :
    flagOfCommand
      (sampleEnv.toLowerCase
        ((commandTokens sampleEnv (adminText (js "!welcome maybe")).messageText).headD []))
      = some Flag.welcomeEnabled ∧
    (handleMessage sampleEnv Store.empty (adminText (js "!welcome maybe"))).trace =
      [Effect.groupMetadata family,
       Effect.sendText family
         (stateNotice sampleEnv Flag.welcomeEnabled
           (Flag.welcomeEnabled.get (settingsOf Store.empty family))) true] ∧
    stateNotice sampleEnv Flag.welcomeEnabled
        (Flag.welcomeEnabled.get (settingsOf Store.empty family))
      = js "Welcome messages are currently OFF. Use '!welcome on/off'." :=
  ⟨by decide,
    (C16_invalid_argument sampleEnv Store.empty (adminText (js "!welcome maybe")) family
      Flag.welcomeEnabled rfl rfl rfl (by decide) (by decide) (by decide) rfl (by decide)
      (by decide)).1,
    by decide⟩

/-- C17.  The get-or-create step of lines 145-148: a chat without settings gets the settings
object with the four flags false, a chat with settings keeps them, the settings of the other
chats and the histories are untouched, and the step done twice is the step done once, with the
same settings object read both times. -/
theorem C17_get_or_create (store : Store) (remoteJid : JsString) :
    (store.chatSettings remoteJid = none →
      (ensureSettings store remoteJid).chatSettings remoteJid = some ⟨false, false, false, false⟩) ∧
    (∀ settings, store.chatSettings remoteJid = some settings →
      (ensureSettings store remoteJid).chatSettings remoteJid = some settings) ∧
    (∀ chat, chat ≠ remoteJid →
      (ensureSettings store remoteJid).chatSettings chat = store.chatSettings chat) ∧
    (ensureSettings store remoteJid).conversationHistory = store.conversationHistory ∧
    (ensureSettings store remoteJid).chatSettings remoteJid
      = some (settingsOf store remoteJid) ∧
    settingsOf (ensureSettings store remoteJid) remoteJid = settingsOf store remoteJid ∧
    ensureSettings (ensureSettings store remoteJid) remoteJid = ensureSettings store remoteJid := by
  refine ⟨?_, ?_, ?_, rfl, ?_, settingsOf_ensure store remoteJid remoteJid, ?_⟩
  · intro h
    simp [ensureSettings, setKey, settingsOf, h, defaultSettings]
  · intro settings h
    simp [ensureSettings, setKey, settingsOf, h]
  · intro chat hne
    simp [ensureSettings, setKey, hne]
  · simp [ensureSettings, setKey]
  · have h := settingsOf_ensure store remoteJid remoteJid
    unfold ensureSettings at h ⊢
    simp only [h]
    congr 1
    funext k
    by_cases hk : k = remoteJid <;> simp [setKey, hk]

/-- C17 in the empty store, for the chat `alice`. -/
theorem C17_get_or_create_witness :
    Store.empty.chatSettings alice = none ∧
    (ensureSettings Store.empty alice).chatSettings alice = some ⟨false, false, false, false⟩ :=
  ⟨rfl, (C17_get_or_create Store.empty alice).1 rfl⟩

/-- C18.  With anti-spam enabled, the bot an administrator, the sender not, and the anti-link
rule not triggered, the deletion of the message is requested exactly when the text has more
than 1000 code units. -/
theorem C18_spam_threshold (env : Env) (remoteJid messageText : JsString)
    (currentSettings : ChatSettings)
    (hspam : currentSettings.antiSpamEnabled = true)
    (hlink : currentSettings.antiLinkEnabled = false ∨ Re.test urlRegex messageText = false) :
    (moderationChecks env remoteJid messageText currentSettings false true).2 =
      (if messageText.length > 1000 then [Effect.sendDelete remoteJid] else []) ∧
    (Effect.sendDelete remoteJid ∈
        (moderationChecks env remoteJid messageText currentSettings false true).2 ↔
      messageText.length > 1000) := by
  have h : (moderationChecks env remoteJid messageText currentSettings false true).2 =
      (if messageText.length > 1000 then [Effect.sendDelete remoteJid] else []) := by
    rcases hlink with hl | hl
    · simp only [moderationChecks, hspam, hl]
      by_cases hlen : messageText.length > 1000 <;> simp [hlen]
    · simp only [moderationChecks, hspam, hl]
      by_cases hlen : messageText.length > 1000 <;> simp [hlen]
  refine ⟨h, ?_⟩
  rw [h]
  by_cases hlen : messageText.length > 1000 <;> simp [hlen]

/-- C18 at the threshold: a text of exactly 1000 letters is not deleted, a text of 1001
letters is. -/
theorem C18_spam_threshold_witness :
    (letters 1000).length = 1000 ∧ (letters 1001).length = 1001 ∧
    (moderationChecks sampleEnv family (letters 1000) ⟨false, false, false, true⟩ false true).2
      = [] ∧
    (moderationChecks sampleEnv family (letters 1001) ⟨false, false, false, true⟩ false true).2
      = [Effect.sendDelete family] := by
  have h0 := (C18_spam_threshold sampleEnv family (letters 1000) ⟨false, false, false, true⟩ rfl
    (Or.inl rfl)).1
  have h1 := (C18_spam_threshold sampleEnv family (letters 1001) ⟨false, false, false, true⟩ rfl
    (Or.inl rfl)).1
  have l0 : (letters 1000).length = 1000 := by rw [letters, List.length_replicate]
  have l1 : (letters 1001).length = 1001 := by rw [letters, List.length_replicate]
  rw [l0] at h0
  rw [l1] at h1
  exact ⟨l0, l1, h0, h1⟩

/-- C19 (the code differs).  In the group `family` the administrator `carol` sends
`!setgroupsubject New name`.  Whether the bot is an administrator of the group or not, the
handler ends with a `ReferenceError` on `botIsAdmin` at line 251 once the metadata is
fetched: no rename is requested and no reply is sent. -/
theorem C19_subject_never_changed :
    isGroupAdmin (some familyMetadata) carol = true ∧
    isGroupAdmin (some familyMetadata) bot = true ∧
    isGroupAdmin (some familyWithoutBot) bot = false ∧
    (commandTokens sampleEnv (js "!setgroupsubject New name")).tail = [js "New", js "name"] ∧
    (handleMessage sampleEnv Store.empty (adminText (js "!setgroupsubject New name"))).trace
      = [Effect.groupMetadata family] ∧
    (handleMessage sampleEnv Store.empty (adminText (js "!setgroupsubject New name"))).completion
      = Completion.threw (Err.referenceError "botIsAdmin") ∧
    (handleMessage { sampleEnv with metadata := some familyWithoutBot } Store.empty
        (adminText (js "!setgroupsubject New name"))).trace
      = [Effect.groupMetadata family] ∧
    (handleMessage { sampleEnv with metadata := some familyWithoutBot } Store.empty
        (adminText (js "!setgroupsubject New name"))).completion
      = Completion.threw (Err.referenceError "botIsAdmin") := by
  set_option maxRecDepth 100000 in decide

/-- C20.  The handler of `group-participants.update` sends the greeting, with the new
participants as its mentions, when the action is `add`, the list of participants is not empty,
the chat has settings with `welcomeEnabled` true and the bot is an administrator of the
group; in every other case it sends nothing.  The settings and the histories are as before
in all cases. -/
theorem C20_welcome (env : Env) (store : Store) (update : ParticipantsUpdate) :
    ((update.action = js "add" ∧ update.participants ≠ [] ∧
        (∃ settings, store.chatSettings update.id = some settings ∧
          settings.welcomeEnabled = true) ∧
        (∃ botId, env.botUser = some botId ∧ isGroupAdmin env.metadata botId = true)) →
      (handleParticipantsUpdate env store update).trace.filter Effect.isSend =
        [Effect.sendMentions update.id
          (js "Welcome to the group, " ++
            joinSp (update.participants.map (fun p => js "@" ++ beforeAt p)) ++ js "! 🎉")
          update.participants]) ∧
    (¬ (update.action = js "add" ∧ update.participants ≠ [] ∧
        (∃ settings, store.chatSettings update.id = some settings ∧
          settings.welcomeEnabled = true) ∧
        (∃ botId, env.botUser = some botId ∧ isGroupAdmin env.metadata botId = true)) →
      (handleParticipantsUpdate env store update).trace.filter Effect.isSend = []) ∧
    (handleParticipantsUpdate env store update).store = store := by
  have hlen : decide (update.participants.length > 0) = decide (update.participants ≠ []) := by
    cases update.participants <;> simp
  refine ⟨?_, ?_, ?_⟩
  · rintro ⟨hadd, hne, ⟨settings, hs, hw⟩, ⟨botId, hb, hadm⟩⟩
    cases hm : env.metadata with
    | none => rw [hm] at hadm; simp [isGroupAdmin] at hadm
    | some md =>
      rw [hm] at hadm
      simp [handleParticipantsUpdate, hs, hw, hadd, hlen, hne, getGroupMetadata, hm, hb, hadm,
        Effect.isSend, welcomeMsg, mentionsOf]
      rfl
  · intro hnot
    unfold handleParticipantsUpdate
    simp only [getGroupMetadata]
    split
    · rename_i hcond
      simp only [Bool.and_eq_true, decide_eq_true_eq] at hcond
      obtain ⟨⟨hw, hadd⟩, hpos⟩ := hcond
      have hne : update.participants ≠ [] := by
        intro h; rw [h] at hpos; simp at hpos
      have hset : ∃ settings, store.chatSettings update.id = some settings ∧
          settings.welcomeEnabled = true := by
        cases hs : store.chatSettings update.id with
        | none => rw [hs] at hw; simp at hw
        | some settings => rw [hs] at hw; exact ⟨settings, rfl, hw⟩
      cases hm : env.metadata with
      | none => simp [Effect.isSend]
      | some md =>
        cases hb : env.botUser with
        | none => simp [Effect.isSend]
        | some botId =>
          by_cases hadm : isGroupAdmin (some md) botId = true
          · exact absurd ⟨hadd, hne, hset, botId, hb, by rw [hm]; exact hadm⟩ hnot
          · simp [hadm, Effect.isSend]
    · simp
  · unfold handleParticipantsUpdate
    simp only [getGroupMetadata]
    repeat' split
    all_goals rfl

/-- C20 in the group `family`, with `welcomeEnabled` true and the bot an administrator, when
two accounts are added. -/
theorem C20_welcome_witness :
    (handleParticipantsUpdate sampleEnv (storeWith family [] ⟨false, false, true, false⟩)
        ⟨family, [js "255700000004@s.whatsapp.net", js "255700000005@s.whatsapp.net"],
          js "add"⟩).trace.filter Effect.isSend =
      [Effect.sendMentions family (js "Welcome to the group, @255700000004 @255700000005! 🎉")
        [js "255700000004@s.whatsapp.net", js "255700000005@s.whatsapp.net"]] := by
  have h := (C20_welcome sampleEnv (storeWith family [] ⟨false, false, true, false⟩)
    ⟨family, [js "255700000004@s.whatsapp.net", js "255700000005@s.whatsapp.net"],
      js "add"⟩).1
    ⟨rfl, by decide, ⟨⟨false, false, true, false⟩, by decide, rfl⟩, ⟨bot, rfl, by decide⟩⟩
  rw [h]
  decide

/-- C21.  When the metadata of the group cannot be fetched, a command of `adminCommands` is
answered with the rejection notice, whoever sends it; the handler returns when the notice is
sent, and the settings of every chat are as before.  `isGroupAdmin` is false without
metadata; with metadata it is true exactly when the entry found for the participant has
`admin` equal to `admin` or `superadmin`, which, the ids being distinct, is the entry listed
for the participant. -/
theorem C21_metadata_failure (env : Env) (store : Store) (msg : Msg) (remoteJid : JsString)
    (hmsg : msg.hasMessage = true) (hme : msg.fromMe = false)
    (hjid : msg.remoteJid = some remoteJid)
    (hgroup : endsWith remoteJid (js "@g.us") = true)
    (hpre : startsWith msg.messageText env.commandPrefix = true)
    (hmeta : env.metadata = none)
    (hcmd : env.toLowerCase ((commandTokens env msg.messageText).headD []) ∈ adminCommands) :
    (handleMessage env store msg).trace =
      [Effect.groupMetadata remoteJid,
       Effect.sendText remoteJid (js "Sorry, only group admins can use this command.") true] ∧
    (env.ok Site.rejection = true →
      (handleMessage env store msg).completion = Completion.returned) ∧
    (∀ chat, settingsOf (handleMessage env store msg).store chat = settingsOf store chat) ∧
    (∀ participant, isGroupAdmin none participant = false) ∧
    (∀ md participant, isGroupAdmin (some md) participant = true ↔
      ∃ ps entry, md.participants = some ps ∧
        ps.find? (fun q => decide (q.id = participant)) = some entry ∧
        (entry.admin = some (js "admin") ∨ entry.admin = some (js "superadmin"))) ∧
    (∀ md ps participant, md.participants = some ps → (ps.map Participant.id).Nodup →
      (isGroupAdmin (some md) participant = true ↔
        ∃ entry ∈ ps, entry.id = participant ∧
          (entry.admin = some (js "admin") ∨ entry.admin = some (js "superadmin")))) := by
  have hadmin : isGroupAdmin env.metadata (msg.senderJid remoteJid) = false := by
    rw [hmeta]; rfl
  have hc : adminCommands.contains
      (env.toLowerCase ((commandTokens env msg.messageText).headD [])) = true := by
    simpa using hcmd
  have hout : handleMessage env store msg =
      ⟨ensureSettings store remoteJid,
        [Effect.groupMetadata remoteJid,
         Effect.sendText remoteJid (js "Sorry, only group admins can use this command.") true],
        if env.ok Site.rejection = true then Completion.returned
        else Completion.threw (Err.rejected Site.rejection)⟩ := by
    rw [handleMessage_command env store msg remoteJid hmsg hme hjid (truthy_of_group _ hgroup)
      hpre]
    simp only [commandBlock, hgroup, getGroupMetadata, isGroupAdmin_some, hadmin, hc, if_true,
      Bool.not_false, Bool.and_self]
    rfl
  refine ⟨by rw [hout], ?_, ?_, fun _ => rfl, isGroupAdmin_iff, ?_⟩
  · intro hok; rw [hout]; simp [hok]
  · intro chat; rw [hout]; exact settingsOf_ensure store remoteJid chat
  · intro md ps participant hps hnd
    rw [isGroupAdmin_iff]
    constructor
    · rintro ⟨ps2, entry, hps2, hf, hadm⟩
      rw [hps] at hps2
      cases hps2
      have := (find?_participant ps participant entry hnd).mp hf
      exact ⟨entry, this.1, this.2, hadm⟩
    · rintro ⟨entry, hmem, hid, hadm⟩
      exact ⟨ps, entry, hps, (find?_participant ps participant entry hnd).mpr ⟨hmem, hid⟩, hadm⟩

/-- C21 at `!aion`, sent by the administrator `carol` in the group `family`, when the
metadata cannot be fetched. -/
theorem C21_metadata_failure_witness :
    isGroupAdmin (some familyMetadata) carol = true ∧
    (handleMessage { sampleEnv with metadata := none } Store.empty
        (adminText (js "!aion"))).trace =
      [Effect.groupMetadata family,
       Effect.sendText family (js "Sorry, only group admins can use this command.") true] :=
  ⟨by decide,
    (C21_metadata_failure { sampleEnv with metadata := none } Store.empty
      (adminText (js "!aion")) family rfl rfl rfl (by decide) (by decide) rfl (by decide)).1⟩

/-- C22.  Two messages of the same sender in the same chat whose texts start with the
prefix, whose commands have the same lower-case form and whose arguments are the same are
handled alike: same maps afterwards, same requests, same completion.  On a text made of the
prefix and of words separated by white space, with white space around them, the command is
the first word and the arguments are the other words. -/
theorem C22_command_case_insensitive (env : Env) (store : Store) (msg1 msg2 : Msg)
    (hmsg : msg1.hasMessage = msg2.hasMessage) (hme : msg1.fromMe = msg2.fromMe)
    (hjid : msg1.remoteJid = msg2.remoteJid) (hsender : msg1.participant = msg2.participant)
    (hpre1 : startsWith msg1.messageText env.commandPrefix = true)
    (hpre2 : startsWith msg2.messageText env.commandPrefix = true)
    (hcommand : env.toLowerCase ((commandTokens env msg1.messageText).headD [])
      = env.toLowerCase ((commandTokens env msg2.messageText).headD []))
    (hargs : (commandTokens env msg1.messageText).tail
      = (commandTokens env msg2.messageText).tail) :
    handleMessage env store msg1 = handleMessage env store msg2 ∧
    (∀ (l r word : JsString) (pairs : List (JsString × JsString)),
      isBlank l → isBlank r → isToken word → (∀ p ∈ pairs, isSeparator p.1 ∧ isToken p.2) →
      (commandTokens env (env.commandPrefix ++ (l ++ (word ++ spaced pairs) ++ r))).headD []
        = word ∧
      (commandTokens env (env.commandPrefix ++ (l ++ (word ++ spaced pairs) ++ r))).tail
        = pairs.map Prod.snd) := by
  constructor
  · unfold handleMessage
    rw [hmsg, hme, hjid]
    split
    · rfl
    · split
      · rfl
      · split
        · rfl
        · simp only [hpre1, hpre2, if_true, Msg.senderJid, hsender]
          exact commandBlock_tokens _ _ _ _ _ _ _ _ hcommand hargs
  · intro l r word pairs hl hr hw hp
    rw [commandTokens_spaced env l r word pairs hl hr hw hp]
    exact ⟨rfl, rfl⟩

/-- C22 at `!AntiLink on` and `!antilink on`, sent by `carol` in the group `family`. -/
theorem C22_command_case_insensitive_witness :
    sampleEnv.toLowerCase ((commandTokens sampleEnv (js "!AntiLink on")).headD [])
      = sampleEnv.toLowerCase ((commandTokens sampleEnv (js "!antilink on")).headD []) ∧
    handleMessage sampleEnv Store.empty (adminText (js "!AntiLink on"))
      = handleMessage sampleEnv Store.empty (adminText (js "!antilink on")) ∧
    (handleMessage sampleEnv Store.empty (adminText (js "!antilink on"))).trace =
      [Effect.groupMetadata family,
       Effect.sendText family
         (js "🔗 Anti-link enabled. Messages with links will be deleted.") true] :=
  ⟨by decide,
    (C22_command_case_insensitive sampleEnv Store.empty (adminText (js "!AntiLink on"))
      (adminText (js "!antilink on")) rfl rfl rfl rfl (by decide) (by decide) (by decide)
      (by decide)).1,
    by set_option maxRecDepth 100000 in decide⟩

/-- C23 (the code differs).  `getClaudeCompletion` on two user messages in a row submits both:
lines 34-36 drop what precedes the first user message and nothing else.  The handler makes
such a call for the second text of a private chat. -/
theorem C23_request_not_alternating :
    getClaudeCompletion sampleEnv [⟨Role.user, js "one"⟩, ⟨Role.user, js "two"⟩] [] =
      (some ⟨Role.assistant, js "hello"⟩,
        [Effect.messagesCreate none [⟨Role.user, js "one"⟩, ⟨Role.user, js "two"⟩]]) ∧
    alternates [⟨Role.user, js "one"⟩, ⟨Role.user, js "two"⟩] = false ∧
    (handleMessage sampleEnv
        (handleMessage sampleEnv Store.empty (privateText (js "one"))).store
        (privateText (js "two"))).trace =
      [Effect.presence true alice,
       Effect.messagesCreate none [⟨Role.user, js "one"⟩, ⟨Role.user, js "two"⟩],
       Effect.presence false alice,
       Effect.sendText alice (js "hello") false] := by
  set_option maxRecDepth 100000 in decide

/-- C24.  A message without the command prefix in a group ends the handler with a
`ReferenceError` on `groupMetadata`, whatever the settings, the sender and the text: no
request is made (no metadata fetched, nothing deleted, no provider call, nothing sent) and
the histories are as before; the settings of every chat are as before too. -/
theorem C24_group_message_throws (env : Env) (store : Store) (msg : Msg) (remoteJid : JsString)
    (hmsg : msg.hasMessage = true) (hme : msg.fromMe = false)
    (hjid : msg.remoteJid = some remoteJid)
    (hgroup : endsWith remoteJid (js "@g.us") = true)
    (hpre : startsWith msg.messageText env.commandPrefix = false) :
    (handleMessage env store msg).completion
      = Completion.threw (Err.referenceError "groupMetadata") ∧
    (handleMessage env store msg).trace = [] ∧
    (handleMessage env store msg).store.conversationHistory = store.conversationHistory ∧
    (∀ chat, settingsOf (handleMessage env store msg).store chat = settingsOf store chat) ∧
    lookupIdent (commandScope false none) "groupMetadata" = some (JsVal.metadata none) := by
  rw [handleMessage_group_plain env store msg remoteJid hmsg hme hjid hgroup hpre]
  exact ⟨rfl, rfl, rfl, fun chat => settingsOf_ensure store remoteJid chat, rfl⟩

/-- C24 at the text `hello`, sent by `bob` in the group `family`. -/
theorem C24_group_message_throws_witness :
    startsWith (groupText (js "hello")).messageText sampleEnv.commandPrefix = false ∧
    (handleMessage sampleEnv Store.empty (groupText (js "hello"))).completion
      = Completion.threw (Err.referenceError "groupMetadata") :=
  ⟨by decide,
    (C24_group_message_throws sampleEnv Store.empty (groupText (js "hello")) family rfl rfl rfl
      (by decide) (by decide)).1⟩

/-- C25.  A history stored after any sequence of events from the empty store has at most
`MAX_HISTORY_LENGTH` = 10 entries and no system message; so the trim of the next user
message finds no system message and keeps the last ten entries. -/
theorem C25_reachable_histories (events : List Event) (chat : JsString)
    (history : List Message)
    (h : (handleEvents Store.empty events).conversationHistory chat = some history) :
    history.length ≤ 10 ∧ (∀ m ∈ history, m.role ≠ Role.system) ∧
    ∀ text, trimHistory (history ++ [(⟨Role.user, text⟩ : Message)]) =
      (history ++ [(⟨Role.user, text⟩ : Message)]).drop
        ((history ++ [(⟨Role.user, text⟩ : Message)]).length - 10) := by
  have hinv := handleEvents_invariant events Store.empty clean_empty
    (by intro c hs hc; simp [Store.empty] at hc)
  have hclean := hinv.1 chat history h
  refine ⟨hinv.2 chat history h, hclean, ?_⟩
  intro text
  apply trimHistory_eq_drop
  cases history with
  | nil => simp
  | cons a t => simpa using hclean a (by simp)

/-- C25 after the text `hi` in the private chat `alice`. -/
theorem C25_reachable_histories_witness :
    (handleEvents Store.empty [Event.message sampleEnv (privateText (js "hi"))]
      ).conversationHistory alice = some [⟨Role.user, js "hi"⟩] ∧
    [(⟨Role.user, js "hi"⟩ : Message)].length ≤ 10 :=
  ⟨by set_option maxRecDepth 100000 in decide,
    (C25_reachable_histories [Event.message sampleEnv (privateText (js "hi"))] alice
      [⟨Role.user, js "hi"⟩] (by set_option maxRecDepth 100000 in decide)).1⟩

/-- C26.  The list the handler passes to `getClaudeCompletion`, the stored history with the
user message pushed and trimmed, ends with that user message, whatever the stored history;
`getClaudeCompletion` does not return `null` on it; every call of the provider made in the AI
section is the one of `getClaudeCompletion` on that list, and its messages end with the user
message. -/
theorem C26_last_is_user (env : Env) (remoteJid messageText : JsString)
    (stored : Option (List Message)) :
    (appendAndTrim (stored.getD []) ⟨Role.user, messageText⟩).getLast?
      = some ⟨Role.user, messageText⟩ ∧
    (getClaudeCompletion env (appendAndTrim (stored.getD []) ⟨Role.user, messageText⟩) []).1
      ≠ none ∧
    (∀ e ∈ (aiSection env remoteJid messageText stored).2, e.isProviderCall = true →
      e ∈ (getClaudeCompletion env
        (appendAndTrim (stored.getD []) ⟨Role.user, messageText⟩) []).2) ∧
    (∀ system messages,
      Effect.messagesCreate system messages ∈ (aiSection env remoteJid messageText stored).2 →
      messages.getLast? = some ⟨Role.user, messageText⟩) := by
  have hlast := appendAndTrim_getLast (stored.getD []) ⟨Role.user, messageText⟩
  refine ⟨hlast, getClaudeCompletion_ne_null env _ messageText [] hlast,
    aiSection_calls env remoteJid messageText stored, ?_⟩
  intro system messages hmem
  have h1 := aiSection_calls env remoteJid messageText stored _ hmem rfl
  have h2 := getClaudeCompletion_calls env _ [] _ h1
  simp only [Effect.messagesCreate.injEq] at h2
  rw [h2.2]
  exact cleanedHistory_getLast _ messageText hlast

/-- C27.  Outside a group no command changes the settings of the chat, and no sequence of
events changes them: from the empty store the four flags of a chat that is no group stay
false.  There `aion`, `aioff` and the three other toggles get their fixed replies. -/
theorem C27_private_settings_fixed (env : Env) (store : Store) (msg : Msg)
    (remoteJid : JsString)
    (hmsg : msg.hasMessage = true) (hme : msg.fromMe = false)
    (hjid : msg.remoteJid = some remoteJid) (hne : truthyStr remoteJid = true)
    (hgroup : endsWith remoteJid (js "@g.us") = false)
    (hpre : startsWith msg.messageText env.commandPrefix = true) :
    settingsOf (handleMessage env store msg).store remoteJid = settingsOf store remoteJid ∧
    (∀ events, settingsOf (handleEvents Store.empty events) remoteJid
      = ⟨false, false, false, false⟩) ∧
    (env.toLowerCase ((commandTokens env msg.messageText).headD []) = js "aion" →
      (handleMessage env store msg).trace =
        [Effect.sendText remoteJid (js "AI is always enabled in private chat.") true]) ∧
    (env.toLowerCase ((commandTokens env msg.messageText).headD []) = js "aioff" →
      (handleMessage env store msg).trace =
        [Effect.sendText remoteJid (js "AI cannot be disabled in private chat.") true]) ∧
    (env.toLowerCase ((commandTokens env msg.messageText).headD []) ∈
        [js "antilink", js "welcome", js "antispam"] →
      (handleMessage env store msg).trace =
        [Effect.sendText remoteJid (js "This command is only for groups.") true]) := by
  have hr := runSwitch_private_reply env remoteJid false none
    (commandTokens env msg.messageText).tail (settingsOf store remoteJid)
  refine ⟨handleMessage_settings env store msg remoteJid hgroup, ?_, ?_, ?_, ?_⟩
  · intro events
    rw [handleEvents_settings events Store.empty remoteJid hgroup]
    rfl
  · intro hc
    exact handleMessage_private_say env store msg remoteJid _ hmsg hme hjid hne hgroup hpre
      (by rw [hc]; exact hr.1) (by decide)
  · intro hc
    exact handleMessage_private_say env store msg remoteJid _ hmsg hme hjid hne hgroup hpre
      (by rw [hc]; exact hr.2.1) (by decide)
  · intro hc
    simp only [List.mem_cons, List.mem_singleton, List.not_mem_nil, or_false] at hc
    rcases hc with hc | hc | hc
    · exact handleMessage_private_say env store msg remoteJid _ hmsg hme hjid hne hgroup hpre
        (by rw [hc]; exact hr.2.2.1) (by decide)
    · exact handleMessage_private_say env store msg remoteJid _ hmsg hme hjid hne hgroup hpre
        (by rw [hc]; exact hr.2.2.2.1) (by decide)
    · exact handleMessage_private_say env store msg remoteJid _ hmsg hme hjid hne hgroup hpre
        (by rw [hc]; exact hr.2.2.2.2) (by decide)

/-- C27 at `!antilink on` in the private chat `alice`. -/
theorem C27_private_settings_fixed_witness :
    endsWith alice (js "@g.us") = false ∧
    settingsOf (handleMessage sampleEnv Store.empty (privateText (js "!antilink on"))).store
      alice = settingsOf Store.empty alice ∧
    (handleMessage sampleEnv Store.empty (privateText (js "!antilink on"))).trace =
      [Effect.sendText alice (js "This command is only for groups.") true] :=
  ⟨by decide,
    (C27_private_settings_fixed sampleEnv Store.empty (privateText (js "!antilink on")) alice
      rfl rfl rfl (by decide) (by decide) (by decide)).1,
    (C27_private_settings_fixed sampleEnv Store.empty (privateText (js "!antilink on")) alice
      rfl rfl rfl (by decide) (by decide) (by decide)).2.2.2.2 (by decide)⟩

end ClaudeBot
